import Mathlib

/-!
# JY901S frame decoder: a shallow embedding of `jy901s.c`

The C handle is embedded as a record; `uint8_t` fields are natural numbers and
every C operation that can wrap carries its `% 256` explicitly.  A `float` is
represented by the rational number it denotes.  The `float` operations of
`parse_acceleration` round to binary32 (`roundF32`); those of
`parse_gyroscope` and `parse_angle` are exact on 16-bit raw values
(`gyro_float_exact`, `angle_float_exact`, `yaw_float_exact`) and are written
without rounding.  The two UART pointers of the handle play no part in parsing
and are left out.
-/

namespace JY901S

/-! ## Data model (`jy901s.h`) -/

/-- Three `float` components of one reading, `v[0]`, `v[1]`, `v[2]`. -/
abbrev Vec3 := ℚ × ℚ × ℚ

/-- The record `JY901S_Data`: last decoded reading per category. -/
structure JY901S_Data where
  acc : Vec3
  gyro : Vec3
  angle : Vec3
  deriving DecidableEq

/-- An `uint8_t [8]` staging buffer. -/
abbrev Buf8 := Fin 8 → Nat

/-- The record `JY901S_Parser`. -/
structure JY901S_Parser where
  frame_state : Nat
  byte_count : Nat
  check_sum : Nat
  acc_buffer : Buf8
  gyro_buffer : Buf8
  angle_buffer : Buf8

/-- The record `JY901S_Handle`, without its two UART pointers. -/
structure JY901S_Handle where
  sensor_data : JY901S_Data
  parser : JY901S_Parser

/-- Array write `buf[i] = v` for an index already known to be below 8. -/
def setAt (buf : Buf8) (i : Nat) (v : Nat) : Buf8 :=
  fun j => if j.val = i then v else buf j

/-- The cast `(int16_t) n`: two's-complement reading of the low 16 bits. -/
def toInt16 (n : Nat) : Int :=
  if n % 65536 < 32768 then (n % 65536 : Nat) else ((n % 65536 : Nat) : Int) - 65536

/-- The C expression `(int16_t)((hi << 8) | lo)`. -/
def raw16 (hi lo : Nat) : Int :=
  toInt16 ((hi <<< 8) ||| lo)

/-! ## Arithmetic of `float` -/

/-- Nearest integer, ties to the even one. -/
def roundEven (q : ℚ) : ℤ :=
  if q - ⌊q⌋ < 1 / 2 then ⌊q⌋
  else if 1 / 2 < q - ⌊q⌋ then ⌊q⌋ + 1
  else if ⌊q⌋ % 2 = 0 then ⌊q⌋ else ⌊q⌋ + 1

/-- Nearest binary32 number (24-bit significand, ties to even).  The exponent
range is not modelled: every value rounded below lies well inside it. -/
def roundF32 (q : ℚ) : ℚ :=
  if q = 0 then 0
  else (roundEven (q / (2 : ℚ) ^ (Int.log 2 |q| - 23)) : ℚ) * (2 : ℚ) ^ (Int.log 2 |q| - 23)

/-- Product of two `float` values. -/
def f32mul (a b : ℚ) : ℚ := roundF32 (a * b)

/-- Quotient of two `float` values. -/
def f32div (a b : ℚ) : ℚ := roundF32 (a / b)

/-! ## Operations (`jy901s.c`) -/

/-- Function `JY901S_ResetParser`: frame state, byte count and checksum are cleared. -/
def JY901S_ResetParser (h : JY901S_Handle) : JY901S_Handle :=
  { h with parser := { h.parser with frame_state := 0, byte_count := 0, check_sum := 0 } }

/-- Function `JY901S_Init`: `memset` of the readings followed by a parser reset
(the staging buffers are not touched; the debug message is not modelled). -/
def JY901S_Init (h : JY901S_Handle) : JY901S_Handle :=
  JY901S_ResetParser { h with sensor_data := ⟨(0, 0, 0), (0, 0, 0), (0, 0, 0)⟩ }

/-- Function `parse_acceleration`: scale is `16.0f * 9.80665f`, the literal
`9.80665f` being the binary32 number nearest to 9.80665; the conversion of an
`int16_t` to `float` is exact, the division and the product round. -/
def parse_acceleration (h : JY901S_Handle) : JY901S_Handle :=
  let b := h.parser.acc_buffer
  let rawX := raw16 (b 1) (b 0)
  let rawY := raw16 (b 3) (b 2)
  let rawZ := raw16 (b 5) (b 4)
  let scale : ℚ := f32mul 16 (roundF32 (980665 / 100000))
  { h with sensor_data := { h.sensor_data with
      acc := (f32mul (f32div (rawX : ℚ) 32768) scale, f32mul (f32div (rawY : ℚ) 32768) scale,
              f32mul (f32div (rawZ : ℚ) 32768) scale) } }

/-- Function `parse_gyroscope`: scale is `2000.0`. -/
def parse_gyroscope (h : JY901S_Handle) : JY901S_Handle :=
  let b := h.parser.gyro_buffer
  let rawX := raw16 (b 1) (b 0)
  let rawY := raw16 (b 3) (b 2)
  let rawZ := raw16 (b 5) (b 4)
  let scale : ℚ := 2000
  { h with sensor_data := { h.sensor_data with
      gyro := ((rawX : ℚ) / 32768 * scale, (rawY : ℚ) / 32768 * scale,
               (rawZ : ℚ) / 32768 * scale) } }

/-- Function `parse_angle`: scale is `180.0`; a negative yaw is shifted by `360.0`. -/
def parse_angle (h : JY901S_Handle) : JY901S_Handle :=
  let b := h.parser.angle_buffer
  let rawRoll := raw16 (b 1) (b 0)
  let rawPitch := raw16 (b 3) (b 2)
  let rawYaw := raw16 (b 5) (b 4)
  let scale : ℚ := 180
  let yaw : ℚ := (rawYaw : ℚ) / 32768 * scale
  { h with sensor_data := { h.sensor_data with
      angle := ((rawRoll : ℚ) / 32768 * scale, (rawPitch : ℚ) / 32768 * scale,
                if yaw < 0 then yaw + 360 else yaw) } }

/-- Function `update_sensor_data`: dispatch on the frame state. -/
def update_sensor_data (h : JY901S_Handle) : JY901S_Handle :=
  if h.parser.frame_state = 1 then parse_acceleration h
  else if h.parser.frame_state = 2 then parse_gyroscope h
  else if h.parser.frame_state = 3 then parse_angle h
  else h

/-- Function `validate_checksum`: decode only when the received byte equals the
running checksum. -/
def validate_checksum (h : JY901S_Handle) (received_sum : Nat) : JY901S_Handle :=
  if (h.parser.check_sum &&& 0xFF) = received_sum then update_sensor_data h else h

/-- Function `store_data`: the index is `byte_count - 2` as an `uint8_t`. -/
def store_data (h : JY901S_Handle) (byte : Nat) : JY901S_Handle :=
  let index := (h.parser.byte_count + 256 - 2) % 256
  if index ≥ 8 then h
  else if h.parser.frame_state = 1 then
    { h with parser := { h.parser with acc_buffer := setAt h.parser.acc_buffer index byte } }
  else if h.parser.frame_state = 2 then
    { h with parser := { h.parser with gyro_buffer := setAt h.parser.gyro_buffer index byte } }
  else if h.parser.frame_state = 3 then
    { h with parser := { h.parser with angle_buffer := setAt h.parser.angle_buffer index byte } }
  else h

/-- The `switch` of `parse_byte`. -/
def parse_switch (h : JY901S_Handle) (byte : Nat) : JY901S_Handle :=
  if h.parser.frame_state = 0 then
    if byte = 0x55 ∧ h.parser.byte_count = 0 then
      { h with parser := { h.parser with check_sum := byte, byte_count := 1 } }
    else h
  else if h.parser.frame_state = 1 ∨ h.parser.frame_state = 2 ∨ h.parser.frame_state = 3 then
    if h.parser.byte_count < 10 then
      let h1 := store_data h byte
      { h1 with parser := { h1.parser with
          check_sum := (h1.parser.check_sum + byte) % 256,
          byte_count := (h1.parser.byte_count + 1) % 256 } }
    else JY901S_ResetParser (validate_checksum h byte)
  else JY901S_ResetParser h

/-- Function `parse_byte`: the `switch`, then the state transition on a selector byte. -/
def parse_byte (h : JY901S_Handle) (byte : Nat) : JY901S_Handle :=
  let h1 := parse_switch h byte
  if h1.parser.byte_count = 1 ∧ (0x51 ≤ byte ∧ byte ≤ 0x53) then
    { h1 with parser := { h1.parser with
        check_sum := (h1.parser.check_sum + byte) % 256,
        frame_state := (byte - 0x50) % 256,
        byte_count := 2 } }
  else h1

/-- The loop of `JY901S_ProcessUARTData` over the bytes the UART delivers. -/
def feed (h : JY901S_Handle) (bytes : List Nat) : JY901S_Handle :=
  bytes.foldl parse_byte h

/-! ## Wire frames and the documented conversions -/

/-- Selector byte of a frame category: `0x51`, `0x52` or `0x53`. -/
def isSelector (c : Nat) : Prop := c = 0x51 ∨ c = 0x52 ∨ c = 0x53

instance (c : Nat) : Decidable (isSelector c) := by
  unfold isSelector; infer_instance

/-- A frame on the wire before its header and checksum are added: the
selector byte and the 8 payload bytes. -/
structure Frame where
  sel : Nat
  p0 : Nat
  p1 : Nat
  p2 : Nat
  p3 : Nat
  p4 : Nat
  p5 : Nat
  p6 : Nat
  p7 : Nat
  deriving DecidableEq

/-- Well-formed frame: a selector in `0x51..0x53` and 8 payload bytes. -/
def Frame.wf (f : Frame) : Prop :=
  isSelector f.sel ∧ f.p0 < 256 ∧ f.p1 < 256 ∧ f.p2 < 256 ∧ f.p3 < 256 ∧
    f.p4 < 256 ∧ f.p5 < 256 ∧ f.p6 < 256 ∧ f.p7 < 256

instance (f : Frame) : Decidable f.wf := by
  unfold Frame.wf; infer_instance

/-- Correct checksum of a frame: low 8 bits of the sum of the 10 bytes
before it. -/
def Frame.checksum (f : Frame) : Nat :=
  (0x55 + f.sel + f.p0 + f.p1 + f.p2 + f.p3 + f.p4 + f.p5 + f.p6 + f.p7) % 256

/-- The 11 bytes of a frame with a correct checksum. -/
def Frame.bytes (f : Frame) : List Nat :=
  [0x55, f.sel, f.p0, f.p1, f.p2, f.p3, f.p4, f.p5, f.p6, f.p7, f.checksum]

/-- Little-endian two's-complement 16-bit value of the byte pair `(lo, hi)`,
as the wire format documents it. -/
def le16 (lo hi : Nat) : Int :=
  if lo + 256 * hi < 32768 then ((lo + 256 * hi : Nat) : Int)
  else ((lo + 256 * hi : Nat) : Int) - 65536

/-- Documented acceleration conversion `raw / 32768 * 16 * 9.80665`. -/
def docAcc (raw : Int) : ℚ := (raw : ℚ) / 32768 * 16 * (980665 / 100000)

/-- Documented angular-rate conversion `raw / 32768 * 2000`. -/
def docGyro (raw : Int) : ℚ := (raw : ℚ) / 32768 * 2000

/-- Documented roll and pitch conversion `raw / 32768 * 180`. -/
def docAngle (raw : Int) : ℚ := (raw : ℚ) / 32768 * 180

/-- Documented yaw conversion: as roll and pitch, plus 360 when negative. -/
def docYaw (raw : Int) : ℚ :=
  if docAngle raw < 0 then docAngle raw + 360 else docAngle raw

/-- Documented conversion of a frame payload for the category of its
selector. -/
def Frame.documented (f : Frame) : Vec3 :=
  if f.sel = 0x51 then
    (docAcc (le16 f.p0 f.p1), docAcc (le16 f.p2 f.p3), docAcc (le16 f.p4 f.p5))
  else if f.sel = 0x52 then
    (docGyro (le16 f.p0 f.p1), docGyro (le16 f.p2 f.p3), docGyro (le16 f.p4 f.p5))
  else
    (docAngle (le16 f.p0 f.p1), docAngle (le16 f.p2 f.p3), docYaw (le16 f.p4 f.p5))

/-- Acceleration the code stores for a raw value: the binary32 number nearest
to `raw / 32768 * 5141509 / 32768`, where 5141509/32768 is the value of
`16.0f * 9.80665f`. -/
def f32Acc (raw : Int) : ℚ := roundF32 ((raw : ℚ) / 32768 * (5141509 / 32768))

/-- Value decoded from a frame payload: the documented conversion for angular
rate and orientation, its binary32 evaluation for acceleration. -/
def Frame.decoded (f : Frame) : Vec3 :=
  if f.sel = 0x51 then
    (f32Acc (le16 f.p0 f.p1), f32Acc (le16 f.p2 f.p3), f32Acc (le16 f.p4 f.p5))
  else f.documented

/-- Each component of `v` is within a relative error of 1e-7 of the
component of `w`. -/
def closeTo (v w : Vec3) : Prop :=
  |v.1 - w.1| ≤ |w.1| / 10 ^ 7 ∧ |v.2.1 - w.2.1| ≤ |w.2.1| / 10 ^ 7 ∧
    |v.2.2 - w.2.2| ≤ |w.2.2| / 10 ^ 7

/-- Stored reading of the category a selector byte names. -/
def reading (d : JY901S_Data) (c : Nat) : Vec3 :=
  if c = 0x51 then d.acc
  else if c = 0x52 then d.gyro
  else d.angle

/-- The parser is Idle: no frame in progress and no header seen. -/
def Idle (h : JY901S_Handle) : Prop :=
  h.parser.frame_state = 0 ∧ h.parser.byte_count = 0

instance (h : JY901S_Handle) : Decidable (Idle h) := by
  unfold Idle; infer_instance

/-- Syncing: the header `0x55` was seen and the selector is awaited. -/
def Syncing (h : JY901S_Handle) : Prop :=
  h.parser.frame_state = 0 ∧ h.parser.byte_count = 1 ∧ h.parser.check_sum = 0x55

/-- Buffer holding the 8 given bytes. -/
def mk8 (q0 q1 q2 q3 q4 q5 q6 q7 : Nat) : Buf8 :=
  fun j => if j.val = 0 then q0 else if j.val = 1 then q1 else if j.val = 2 then q2
    else if j.val = 3 then q3 else if j.val = 4 then q4 else if j.val = 5 then q5
    else if j.val = 6 then q6 else q7

/-- State reached just before the checksum byte of a frame: the selector
`c` fixed the frame state and the 8 bytes sit in the buffer of that state. -/
def collected (h : JY901S_Handle) (c q0 q1 q2 q3 q4 q5 q6 q7 : Nat) : JY901S_Handle :=
  { sensor_data := h.sensor_data
    parser :=
      { frame_state := c - 0x50
        byte_count := 10
        check_sum := (0x55 + c + q0 + q1 + q2 + q3 + q4 + q5 + q6 + q7) % 256
        acc_buffer := if c = 0x51 then mk8 q0 q1 q2 q3 q4 q5 q6 q7 else h.parser.acc_buffer
        gyro_buffer := if c = 0x52 then mk8 q0 q1 q2 q3 q4 q5 q6 q7 else h.parser.gyro_buffer
        angle_buffer :=
          if c = 0x53 then mk8 q0 q1 q2 q3 q4 q5 q6 q7 else h.parser.angle_buffer } }

/-- Readings after a frame is decoded: the category of the selector is
overwritten by the decoded value, the two others are kept. -/
def store (d : JY901S_Data) (f : Frame) : JY901S_Data :=
  if f.sel = 0x51 then { d with acc := f.decoded }
  else if f.sel = 0x52 then { d with gyro := f.decoded }
  else { d with angle := f.decoded }

/-- Number of further bytes that cannot yet complete a frame. -/
def quiet (h : JY901S_Handle) : Nat :=
  if h.parser.frame_state = 0 then
    if h.parser.byte_count = 1 then 9 else 10
  else if h.parser.frame_state = 1 ∨ h.parser.frame_state = 2 ∨ h.parser.frame_state = 3 then
    if 2 ≤ h.parser.byte_count then 10 - h.parser.byte_count else 0
  else 0

/-- Byte list with bit `j` of its byte number `i` inverted. -/
def flipAt : List Nat → Nat → Nat → List Nat
  | [], _, _ => []
  | b :: bs, 0, j => (b ^^^ 2 ^ j) :: bs
  | b :: bs, i + 1, j => b :: flipAt bs i j

/-- Byte list with its bit number `k` inverted, 8 bits to a byte. -/
def flipBit (bs : List Nat) (k : Nat) : List Nat :=
  flipAt bs (k / 8) (k % 8)

/-- Bytes of a stream of frames, each with its correct checksum. -/
def stream : List Frame → List Nat
  | [] => []
  | f :: fs => f.bytes ++ stream fs

/-- Last frame of the category `c` in a list of frames. -/
def lastOf (c : Nat) (fs : List Frame) : Option Frame :=
  (fs.filter (fun f => f.sel = c)).getLast?

/-- A header byte `0x55` followed by a selector byte. -/
def headerThenSelector (a b : Nat) : Prop := a = 0x55 ∧ isSelector b

instance (a b : Nat) : Decidable (headerThenSelector a b) := by
  unfold headerThenSelector; infer_instance

/-- A handle with a parser in Idle, nonzero readings and arbitrary buffers. -/
def sampleHandle : JY901S_Handle :=
  ⟨⟨(1, 1, 1), (2, 2, 2), (3, 3, 3)⟩, ⟨0, 0, 7, fun _ => 9, fun _ => 9, fun _ => 9⟩⟩

/-- An angular-rate frame with raw values 16384, 0 and -1. -/
def sampleFrame : Frame := ⟨0x52, 0x00, 0x40, 0, 0, 0xFF, 0xFF, 0, 0⟩

/-- An acceleration frame with raw values -32768, 0 and 0. -/
def fullScaleAccFrame : Frame := ⟨0x51, 0x00, 0x80, 0, 0, 0, 0, 0, 0⟩

/-- An angular-rate frame with an all-zero payload. -/
def zeroGyroFrame : Frame := ⟨0x52, 0, 0, 0, 0, 0, 0, 0, 0⟩

/-- Consistency of byte count and frame state: Idle or Syncing with count 0
or 1, or collecting with a count from 2 to 10. -/
def ParserInv (h : JY901S_Handle) : Prop :=
  (h.parser.frame_state = 0 ∧ (h.parser.byte_count = 0 ∨ h.parser.byte_count = 1)) ∨
    ((h.parser.frame_state = 1 ∨ h.parser.frame_state = 2 ∨ h.parser.frame_state = 3) ∧
      2 ≤ h.parser.byte_count ∧ h.parser.byte_count ≤ 10)

/-- The parser is collecting the payload of a frame. -/
def Collecting (h : JY901S_Handle) : Prop :=
  h.parser.frame_state = 1 ∨ h.parser.frame_state = 2 ∨ h.parser.frame_state = 3

instance (h : JY901S_Handle) : Decidable (Collecting h) := by
  unfold Collecting; infer_instance

/-- A handle outside the reachable states: collecting an acceleration frame
with byte count 11, checksum 0 and an all-zero buffer. -/
def overrunHandle : JY901S_Handle :=
  ⟨⟨(1, 1, 1), (2, 2, 2), (3, 3, 3)⟩, ⟨1, 11, 0, fun _ => 0, fun _ => 0, fun _ => 0⟩⟩

/-- A handle in Syncing: header seen, selector awaited. -/
def syncingHandle : JY901S_Handle :=
  ⟨⟨(1, 1, 1), (2, 2, 2), (3, 3, 3)⟩, ⟨0, 1, 0x55, fun _ => 9, fun _ => 9, fun _ => 9⟩⟩

/-- A handle outside the reachable states: collecting an acceleration frame
with byte count 0. -/
def strayHandle : JY901S_Handle :=
  ⟨⟨(1, 1, 1), (2, 2, 2), (3, 3, 3)⟩, ⟨1, 0, 0, fun _ => 9, fun _ => 9, fun _ => 9⟩⟩

/-- States met from an Idle parser: Idle, Syncing with checksum `0x55`, or
collecting with a byte count from 2 to 10. -/
def SyncInv (h : JY901S_Handle) : Prop :=
  (h.parser.frame_state = 0 ∧
      (h.parser.byte_count = 0 ∨ (h.parser.byte_count = 1 ∧ h.parser.check_sum = 0x55))) ∨
    (Collecting h ∧ 2 ≤ h.parser.byte_count ∧ h.parser.byte_count ≤ 10)

/-- Staging buffer the frame state selects in `store_data`. -/
def activeBuffer (h : JY901S_Handle) : Buf8 :=
  if h.parser.frame_state = 1 then h.parser.acc_buffer
  else if h.parser.frame_state = 2 then h.parser.gyro_buffer
  else h.parser.angle_buffer

/-! ## Auxiliary facts -/

/-- Rounding to the nearest integer moves a number by at most one half. -/
theorem roundEven_sub_le (y : ℚ) : |(roundEven y : ℚ) - y| ≤ 1 / 2 := by
  have h1 : (⌊y⌋ : ℚ) ≤ y := Int.floor_le y
  have h2 : y < (⌊y⌋ : ℚ) + 1 := Int.lt_floor_add_one y
  unfold roundEven
  rw [abs_le]
  split_ifs <;> push_cast <;> constructor <;> linarith

/-- An integer rounds to itself. -/
theorem roundEven_intCast (n : ℤ) : roundEven (n : ℚ) = n := by
  unfold roundEven
  simp

/-- Rounding to binary32 has a relative error of at most `2^-24`. -/
theorem roundF32_rel (q : ℚ) : |roundF32 q - q| ≤ |q| / 2 ^ 24 := by
  unfold roundF32
  split_ifs with h0
  · simp [h0]
  · have hpos : 0 < |q| := abs_pos.mpr h0
    have hu : (0 : ℚ) < (2 : ℚ) ^ (Int.log 2 |q| - 23) := zpow_pos (by norm_num) _
    have hlog : ((2 : ℕ) : ℚ) ^ Int.log 2 |q| ≤ |q| := Int.zpow_log_le_self (by norm_num) hpos
    have hsplit : (2 : ℚ) ^ (Int.log 2 |q| - 23) = (2 : ℚ) ^ Int.log 2 |q| / 2 ^ 23 := by
      rw [zpow_sub₀ (by norm_num : (2 : ℚ) ≠ 0)]
      norm_num
    have hr := roundEven_sub_le (q / (2 : ℚ) ^ (Int.log 2 |q| - 23))
    have key : (roundEven (q / (2 : ℚ) ^ (Int.log 2 |q| - 23)) : ℚ) * (2 : ℚ) ^ (Int.log 2 |q| - 23)
        - q = ((roundEven (q / (2 : ℚ) ^ (Int.log 2 |q| - 23)) : ℚ)
          - q / (2 : ℚ) ^ (Int.log 2 |q| - 23)) * (2 : ℚ) ^ (Int.log 2 |q| - 23) := by
      field_simp
    rw [key, abs_mul, abs_of_pos hu]
    have hle : |(roundEven (q / (2 : ℚ) ^ (Int.log 2 |q| - 23)) : ℚ)
          - q / (2 : ℚ) ^ (Int.log 2 |q| - 23)| * (2 : ℚ) ^ (Int.log 2 |q| - 23)
        ≤ 1 / 2 * (2 : ℚ) ^ (Int.log 2 |q| - 23) :=
      mul_le_mul_of_nonneg_right hr hu.le
    have hcast : ((2 : ℕ) : ℚ) = 2 := by norm_num
    rw [hcast] at hlog
    rw [hsplit] at hle ⊢
    have : (1 : ℚ) / 2 * ((2 : ℚ) ^ Int.log 2 |q| / 2 ^ 23) ≤ |q| / 2 ^ 24 := by
      generalize (2 : ℚ) ^ Int.log 2 |q| = t at hlog
      norm_num
      linarith
    linarith

/-- A number `m * 2^k` with `|m| < 2^24` is a binary32 number: it rounds to
itself. -/
theorem roundF32_exact (m k : ℤ) (hm : |m| < 2 ^ 24) :
    roundF32 ((m : ℚ) * (2 : ℚ) ^ k) = (m : ℚ) * (2 : ℚ) ^ k := by
  unfold roundF32
  have h2k : (0 : ℚ) < (2 : ℚ) ^ k := zpow_pos (by norm_num) _
  split_ifs with h0
  · exact h0.symm
  · have hm0 : m ≠ 0 := by
      intro e; apply h0; rw [e]; simp
    have hpos : 0 < |(m : ℚ) * (2 : ℚ) ^ k| := abs_pos.mpr h0
    have hmq : |(m : ℚ)| < 2 ^ 24 := by exact_mod_cast hm
    have hlt : |(m : ℚ) * (2 : ℚ) ^ k| < ((2 : ℕ) : ℚ) ^ (k + 24) := by
      have e : ((2 : ℕ) : ℚ) ^ (k + 24) = 2 ^ 24 * (2 : ℚ) ^ k := by
        rw [Nat.cast_ofNat, zpow_add₀ (by norm_num : (2 : ℚ) ≠ 0), mul_comm]
        norm_num
      rw [e, abs_mul, abs_of_pos h2k]
      exact mul_lt_mul_of_pos_right hmq h2k
    have hlog : Int.log 2 |(m : ℚ) * (2 : ℚ) ^ k| < k + 24 :=
      (Int.lt_zpow_iff_log_lt (by norm_num) hpos).mp hlt
    obtain ⟨j, hj⟩ : ∃ j : ℕ, k - (Int.log 2 |(m : ℚ) * (2 : ℚ) ^ k| - 23) = (j : ℤ) :=
      Int.eq_ofNat_of_zero_le (by omega)
    have hk : k = (Int.log 2 |(m : ℚ) * (2 : ℚ) ^ k| - 23) + (j : ℤ) := by omega
    have hu : (2 : ℚ) ^ (Int.log 2 |(m : ℚ) * (2 : ℚ) ^ k| - 23) ≠ 0 :=
      (zpow_pos (by norm_num) _).ne'
    have hq : (m : ℚ) * (2 : ℚ) ^ k / (2 : ℚ) ^ (Int.log 2 |(m : ℚ) * (2 : ℚ) ^ k| - 23)
        = ((m * 2 ^ j : ℤ) : ℚ) := by
      rw [div_eq_iff hu]
      push_cast
      conv_lhs => rw [hk]
      rw [zpow_add₀ (by norm_num : (2 : ℚ) ≠ 0), zpow_natCast]
      ring
    rw [hq, roundEven_intCast, ← hq]
    field_simp

/-- An integer within one half of a number is its rounding. -/
theorem roundEven_eq_of_near (y : ℚ) (n : ℤ) (hn : |(n : ℚ) - y| < 1 / 2) :
    roundEven y = n := by
  rw [abs_lt] at hn
  obtain ⟨h1, h2⟩ := hn
  rcases le_or_lt (n : ℚ) y with hle | hlt
  · have hf : ⌊y⌋ = n := Int.floor_eq_iff.mpr ⟨hle, by linarith⟩
    unfold roundEven
    rw [hf, if_pos (by linarith)]
  · have hf : ⌊y⌋ = n - 1 := Int.floor_eq_iff.mpr ⟨by push_cast; linarith, by push_cast; linarith⟩
    unfold roundEven
    rw [hf]
    have hn1 : ¬ (y - ((n - 1 : ℤ) : ℚ) < 1 / 2) := by push_cast; linarith
    have hn2 : 1 / 2 < y - ((n - 1 : ℤ) : ℚ) := by push_cast; linarith
    rw [if_neg hn1, if_pos hn2]
    omega

theorem roundF32_zero : roundF32 0 = 0 := by
  unfold roundF32
  rw [if_pos rfl]

theorem f32div_zero (b : ℚ) : f32div 0 b = 0 := by
  unfold f32div
  rw [zero_div, roundF32_zero]

theorem f32mul_zero (b : ℚ) : f32mul 0 b = 0 := by
  unfold f32mul
  rw [zero_mul, roundF32_zero]

/-- The literal `9.80665f` is 5141509/524288. -/
theorem gravity_literal : roundF32 (980665 / 100000) = 5141509 / 524288 := by
  have hq : (980665 / 100000 : ℚ) ≠ 0 := by norm_num
  have habs : |(980665 / 100000 : ℚ)| = 980665 / 100000 := abs_of_pos (by norm_num)
  have hlog : Int.log 2 (980665 / 100000 : ℚ) = 3 := by
    apply le_antisymm
    · have h4 : Int.log 2 (980665 / 100000 : ℚ) < 4 :=
        (Int.lt_zpow_iff_log_lt (by norm_num) (by norm_num)).mp (by norm_num)
      omega
    · exact (Int.zpow_le_iff_le_log (by norm_num) (by norm_num)).mp (by norm_num)
  unfold roundF32
  rw [if_neg hq, habs, hlog]
  have hr : roundEven (980665 / 100000 / (2 : ℚ) ^ ((3 : ℤ) - 23)) = 10283018 := by
    apply roundEven_eq_of_near
    rw [abs_lt]
    constructor <;> norm_num
  rw [hr]
  norm_num

/-- The constant `16.0f * 9.80665f` is 5141509/32768. -/
theorem scale_value : f32mul 16 (roundF32 (980665 / 100000)) = 5141509 / 32768 := by
  rw [gravity_literal]
  unfold f32mul
  have e : (16 : ℚ) * (5141509 / 524288) = ((5141509 : ℤ) : ℚ) * (2 : ℚ) ^ (-15 : ℤ) := by
    norm_num
  rw [e, roundF32_exact 5141509 (-15) (by norm_num)]
  norm_num

/-- The quotient `(float)raw / 32768.0f` of a 16-bit raw value is exact. -/
theorem f32div_raw (raw : Int) (hlo : -32768 ≤ raw) (hhi : raw < 32768) :
    f32div (raw : ℚ) 32768 = (raw : ℚ) / 32768 := by
  unfold f32div
  have e : (raw : ℚ) / 32768 = (raw : ℚ) * (2 : ℚ) ^ (-15 : ℤ) := by
    norm_num
    ring
  have hm : |raw| < 2 ^ 24 := by
    rw [abs_lt]
    constructor <;> omega
  rw [e, roundF32_exact raw (-15) hm]

/-- The acceleration computed by the `float` operations of
`parse_acceleration` for a 16-bit raw value. -/
theorem acc_float (raw : Int) (hlo : -32768 ≤ raw) (hhi : raw < 32768) :
    f32mul (f32div (raw : ℚ) 32768) (f32mul 16 (roundF32 (980665 / 100000))) = f32Acc raw := by
  rw [scale_value, f32div_raw raw hlo hhi]
  rfl

/-- The stored acceleration is within 1e-7 relative of the documented
conversion. -/
theorem f32Acc_close (raw : Int) : |f32Acc raw - docAcc raw| ≤ |docAcc raw| / 10 ^ 7 := by
  have hrel := roundF32_rel ((raw : ℚ) / 32768 * (5141509 / 32768))
  unfold f32Acc docAcc
  rw [abs_le] at hrel ⊢
  obtain ⟨h1, h2⟩ := hrel
  rcases le_or_lt 0 (raw : ℚ) with hr | hr
  · have ha : |(raw : ℚ) / 32768 * (5141509 / 32768)| = (raw : ℚ) / 32768 * (5141509 / 32768) :=
      abs_of_nonneg (by positivity)
    have hb : |(raw : ℚ) / 32768 * 16 * (980665 / 100000)| =
        (raw : ℚ) / 32768 * 16 * (980665 / 100000) := abs_of_nonneg (by positivity)
    rw [ha] at h1 h2
    rw [hb]
    constructor <;> linarith
  · have ha : |(raw : ℚ) / 32768 * (5141509 / 32768)| =
        -((raw : ℚ) / 32768 * (5141509 / 32768)) := abs_of_neg (by linarith)
    have hb : |(raw : ℚ) / 32768 * 16 * (980665 / 100000)| =
        -((raw : ℚ) / 32768 * 16 * (980665 / 100000)) := abs_of_neg (by linarith)
    rw [ha] at h1 h2
    rw [hb]
    constructor <;> linarith

/-- The `float` operations of `parse_gyroscope` are exact on 16-bit raw
values. -/
theorem gyro_float_exact (raw : Int) (hlo : -32768 ≤ raw) (hhi : raw < 32768) :
    f32mul (f32div (raw : ℚ) 32768) 2000 = (raw : ℚ) / 32768 * 2000 := by
  rw [f32div_raw raw hlo hhi]
  unfold f32mul
  have e : (raw : ℚ) / 32768 * 2000 = ((raw * 125 : ℤ) : ℚ) * (2 : ℚ) ^ (-11 : ℤ) := by
    push_cast
    norm_num
    ring
  have hm : |raw * 125| < 2 ^ 24 := by
    rw [abs_lt]
    constructor <;> omega
  rw [e, roundF32_exact (raw * 125) (-11) hm]

/-- The `float` operations of `parse_angle` before the yaw shift are exact on
16-bit raw values. -/
theorem angle_float_exact (raw : Int) (hlo : -32768 ≤ raw) (hhi : raw < 32768) :
    f32mul (f32div (raw : ℚ) 32768) 180 = (raw : ℚ) / 32768 * 180 := by
  rw [f32div_raw raw hlo hhi]
  unfold f32mul
  have e : (raw : ℚ) / 32768 * 180 = ((raw * 45 : ℤ) : ℚ) * (2 : ℚ) ^ (-13 : ℤ) := by
    push_cast
    norm_num
    ring
  have hm : |raw * 45| < 2 ^ 24 := by
    rw [abs_lt]
    constructor <;> omega
  rw [e, roundF32_exact (raw * 45) (-13) hm]

/-- The yaw shift `angle[2] += 360.0f` is exact on 16-bit raw values. -/
theorem yaw_float_exact (raw : Int) (hlo : -32768 ≤ raw) (hhi : raw < 32768) :
    roundF32 ((raw : ℚ) / 32768 * 180 + 360) = (raw : ℚ) / 32768 * 180 + 360 := by
  have e : (raw : ℚ) / 32768 * 180 + 360 =
      ((raw * 45 + 2949120 : ℤ) : ℚ) * (2 : ℚ) ^ (-13 : ℤ) := by
    push_cast
    norm_num
    ring
  have hm : |raw * 45 + 2949120| < 2 ^ 24 := by
    rw [abs_lt]
    constructor <;> omega
  rw [e, roundF32_exact (raw * 45 + 2949120) (-13) hm]


/-- On bytes, the C expression `(int16_t)((hi << 8) | lo)` is the documented
little-endian two's-complement value. -/
theorem raw16_eq_le16 (hi lo : Nat) (hlo : lo < 256) (hhi : hi < 256) :
    raw16 hi lo = le16 lo hi := by
  have h1 : (hi <<< 8) ||| lo = lo + 256 * hi := by
    rw [Nat.shiftLeft_eq, Nat.mul_comm hi, Nat.add_comm]
    exact (Nat.mul_add_lt_is_or (i := 8) hlo hi).symm
  unfold raw16 toInt16 le16
  rw [h1]
  have h2 : (lo + 256 * hi) % 65536 = lo + 256 * hi := Nat.mod_eq_of_lt (by omega)
  rw [h2]

/-- Eight writes at the indices 0..7 replace the whole buffer. -/
theorem setAt_all (buf : Buf8) (q0 q1 q2 q3 q4 q5 q6 q7 : Nat) :
    setAt (setAt (setAt (setAt (setAt (setAt (setAt (setAt buf 0 q0) 1 q1) 2 q2) 3 q3)
      4 q4) 5 q5) 6 q6) 7 q7 = mk8 q0 q1 q2 q3 q4 q5 q6 q7 := by
  funext j
  fin_cases j <;> simp [setAt, mk8]

theorem mk8_0 (q0 q1 q2 q3 q4 q5 q6 q7 : Nat) : mk8 q0 q1 q2 q3 q4 q5 q6 q7 0 = q0 := rfl
theorem mk8_1 (q0 q1 q2 q3 q4 q5 q6 q7 : Nat) : mk8 q0 q1 q2 q3 q4 q5 q6 q7 1 = q1 := rfl
theorem mk8_2 (q0 q1 q2 q3 q4 q5 q6 q7 : Nat) : mk8 q0 q1 q2 q3 q4 q5 q6 q7 2 = q2 := rfl
theorem mk8_3 (q0 q1 q2 q3 q4 q5 q6 q7 : Nat) : mk8 q0 q1 q2 q3 q4 q5 q6 q7 3 = q3 := rfl
theorem mk8_4 (q0 q1 q2 q3 q4 q5 q6 q7 : Nat) : mk8 q0 q1 q2 q3 q4 q5 q6 q7 4 = q4 := rfl
theorem mk8_5 (q0 q1 q2 q3 q4 q5 q6 q7 : Nat) : mk8 q0 q1 q2 q3 q4 q5 q6 q7 5 = q5 := rfl

theorem feed_cons (h : JY901S_Handle) (b : Nat) (bs : List Nat) :
    feed h (b :: bs) = feed (parse_byte h b) bs := rfl

theorem feed_nil (h : JY901S_Handle) : feed h [] = h := rfl

theorem feed_append (h : JY901S_Handle) (xs ys : List Nat) :
    feed h (xs ++ ys) = feed (feed h xs) ys := by
  simp [feed, List.foldl_append]

/-- From Syncing, a selector and 8 payload bytes reach the state `collected`. -/
theorem feed_collect_sync (h : JY901S_Handle) (hs : Syncing h) (c q0 q1 q2 q3 q4 q5 q6 q7 : Nat)
    (hc : isSelector c) :
    feed h [c, q0, q1, q2, q3, q4, q5, q6, q7] = collected h c q0 q1 q2 q3 q4 q5 q6 q7 := by
  obtain ⟨h1, h2, h3⟩ := hs
  rcases hc with rfl | rfl | rfl
  all_goals
    simp [feed, parse_byte, parse_switch, store_data, h1, h2, h3, collected, setAt_all]

/-- In Idle the header byte sets the checksum to `0x55` and the count to 1. -/
theorem parse_byte_header (h : JY901S_Handle) (hi : Idle h) :
    parse_byte h 0x55 =
      { h with parser := { h.parser with check_sum := 0x55, byte_count := 1 } } := by
  obtain ⟨h1, h2⟩ := hi
  simp [parse_byte, parse_switch, h1, h2]

theorem syncing_after_header (h : JY901S_Handle) (hi : Idle h) :
    Syncing (parse_byte h 0x55) := by
  rw [parse_byte_header h hi]
  exact ⟨hi.1, rfl, rfl⟩

theorem collected_sync (h : JY901S_Handle) (hi : Idle h) (c q0 q1 q2 q3 q4 q5 q6 q7 : Nat) :
    collected (parse_byte h 0x55) c q0 q1 q2 q3 q4 q5 q6 q7 =
      collected h c q0 q1 q2 q3 q4 q5 q6 q7 := by
  rw [parse_byte_header h hi]
  rfl

/-- From Idle, header, selector and 8 payload bytes reach the state
`collected`. -/
theorem feed_collect (h : JY901S_Handle) (hi : Idle h) (c q0 q1 q2 q3 q4 q5 q6 q7 : Nat)
    (hc : isSelector c) :
    feed h [0x55, c, q0, q1, q2, q3, q4, q5, q6, q7] =
      collected h c q0 q1 q2 q3 q4 q5 q6 q7 := by
  rw [feed_cons, feed_collect_sync _ (syncing_after_header h hi) _ _ _ _ _ _ _ _ _ hc,
    collected_sync h hi]

/-- The mask `& 0xFF` keeps the low 8 bits. -/
theorem and_255 (n : Nat) : n &&& 255 = n % 256 := by
  have h := Nat.and_pow_two_sub_one_eq_mod n 8
  norm_num at h
  exact h

theorem parse_switch_collected (h : JY901S_Handle) (c q0 q1 q2 q3 q4 q5 q6 q7 x : Nat)
    (hc : isSelector c) :
    parse_switch (collected h c q0 q1 q2 q3 q4 q5 q6 q7) x =
      JY901S_ResetParser (validate_checksum (collected h c q0 q1 q2 q3 q4 q5 q6 q7) x) := by
  rcases hc with rfl | rfl | rfl <;> simp [parse_switch, collected]

/-- The 11th byte: decode when it equals the running checksum, and reset the
parser in both cases. -/
theorem parse_byte_collected (h : JY901S_Handle) (c q0 q1 q2 q3 q4 q5 q6 q7 x : Nat)
    (hc : isSelector c) :
    parse_byte (collected h c q0 q1 q2 q3 q4 q5 q6 q7) x =
      if (0x55 + c + q0 + q1 + q2 + q3 + q4 + q5 + q6 + q7) % 256 = x then
        JY901S_ResetParser (update_sensor_data (collected h c q0 q1 q2 q3 q4 q5 q6 q7))
      else JY901S_ResetParser (collected h c q0 q1 q2 q3 q4 q5 q6 q7) := by
  unfold parse_byte
  rw [parse_switch_collected h c q0 q1 q2 q3 q4 q5 q6 q7 x hc]
  have hbc : ∀ g : JY901S_Handle, (JY901S_ResetParser g).parser.byte_count = 0 := fun _ => rfl
  simp only [hbc, validate_checksum, and_255]
  have hcs : (collected h c q0 q1 q2 q3 q4 q5 q6 q7).parser.check_sum =
      (0x55 + c + q0 + q1 + q2 + q3 + q4 + q5 + q6 + q7) % 256 := rfl
  rw [hcs, Nat.mod_mod]
  simp
  split_ifs <;> rfl

/-- Range of the little-endian 16-bit value of two bytes. -/
theorem le16_bounds (lo hi : Nat) (hlo : lo < 256) (hhi : hi < 256) :
    -32768 ≤ le16 lo hi ∧ le16 lo hi < 32768 := by
  unfold le16
  split_ifs <;> omega

/-- Decoding in the state `collected` overwrites the reading of the selected
category with the decoded value of the frame. -/
theorem update_collected (h : JY901S_Handle) (f : Frame) (hf : f.wf) :
    (update_sensor_data (collected h f.sel f.p0 f.p1 f.p2 f.p3 f.p4 f.p5 f.p6 f.p7)).sensor_data
      = store h.sensor_data f := by
  obtain ⟨hc, h0, h1, h2, h3, h4, h5, -, -⟩ := hf
  have e01 := raw16_eq_le16 f.p1 f.p0 h0 h1
  have e23 := raw16_eq_le16 f.p3 f.p2 h2 h3
  have e45 := raw16_eq_le16 f.p5 f.p4 h4 h5
  have a01 := acc_float (le16 f.p0 f.p1) (le16_bounds _ _ h0 h1).1 (le16_bounds _ _ h0 h1).2
  have a23 := acc_float (le16 f.p2 f.p3) (le16_bounds _ _ h2 h3).1 (le16_bounds _ _ h2 h3).2
  have a45 := acc_float (le16 f.p4 f.p5) (le16_bounds _ _ h4 h5).1 (le16_bounds _ _ h4 h5).2
  rcases hc with hc | hc | hc
  · simp [update_sensor_data, collected, hc, parse_acceleration, mk8_0, mk8_1, mk8_2, mk8_3,
      mk8_4, mk8_5, store, Frame.decoded, e01, e23, e45, a01, a23, a45]
  · simp [update_sensor_data, collected, hc, parse_gyroscope, mk8_0, mk8_1, mk8_2, mk8_3,
      mk8_4, mk8_5, store, Frame.decoded, Frame.documented, e01, e23, e45, docGyro]
  · simp [update_sensor_data, collected, hc, parse_angle, mk8_0, mk8_1, mk8_2, mk8_3,
      mk8_4, mk8_5, store, Frame.decoded, Frame.documented, e01, e23, e45, docAngle, docYaw]

/-- A well-formed frame fed from Idle is decoded and the parser reset. -/
theorem feed_frame (h : JY901S_Handle) (hi : Idle h) (f : Frame) (hf : f.wf) :
    feed h f.bytes =
      JY901S_ResetParser
        (update_sensor_data (collected h f.sel f.p0 f.p1 f.p2 f.p3 f.p4 f.p5 f.p6 f.p7)) := by
  have hsplit : f.bytes =
      [0x55, f.sel, f.p0, f.p1, f.p2, f.p3, f.p4, f.p5, f.p6, f.p7] ++ [f.checksum] := rfl
  rw [hsplit, feed_append, feed_collect h hi _ _ _ _ _ _ _ _ _ hf.1, feed_cons, feed_nil,
    parse_byte_collected _ _ _ _ _ _ _ _ _ _ _ hf.1]
  simp [Frame.checksum]

theorem feed_frame_data (h : JY901S_Handle) (hi : Idle h) (f : Frame) (hf : f.wf) :
    (feed h f.bytes).sensor_data = store h.sensor_data f := by
  rw [feed_frame h hi f hf]
  exact update_collected h f hf

theorem feed_frame_reset (h : JY901S_Handle) (hi : Idle h) (f : Frame) (hf : f.wf) :
    (feed h f.bytes).parser.frame_state = 0 ∧ (feed h f.bytes).parser.byte_count = 0 ∧
      (feed h f.bytes).parser.check_sum = 0 := by
  rw [feed_frame h hi f hf]
  exact ⟨rfl, rfl, rfl⟩

theorem store_data_sensor (h : JY901S_Handle) (b : Nat) :
    (store_data h b).sensor_data = h.sensor_data := by
  unfold store_data
  simp only []
  split_ifs <;> rfl

theorem store_data_fields (h : JY901S_Handle) (b : Nat) :
    (store_data h b).parser.frame_state = h.parser.frame_state ∧
      (store_data h b).parser.byte_count = h.parser.byte_count ∧
      (store_data h b).parser.check_sum = h.parser.check_sum := by
  unfold store_data
  simp only []
  split_ifs <;> exact ⟨rfl, rfl, rfl⟩

/-- While `quiet` is positive a byte leaves the readings unchanged and lowers
`quiet` by at most one. -/
theorem quiet_step (h : JY901S_Handle) (b : Nat) (hq : 0 < quiet h) :
    (parse_byte h b).sensor_data = h.sensor_data ∧ quiet h ≤ quiet (parse_byte h b) + 1 := by
  obtain ⟨s1, s2, s3⟩ := store_data_fields h b
  have s0 := store_data_sensor h b
  by_cases h0 : h.parser.frame_state = 0
  · by_cases hb : b = 0x55 ∧ h.parser.byte_count = 0
    · obtain ⟨rfl, hb0⟩ := hb
      simp [parse_byte, parse_switch, quiet, h0, hb0]
    · have hsw : parse_switch h b = h := by simp [parse_switch, h0, hb]
      unfold parse_byte
      rw [hsw]
      simp only []
      split_ifs with hsel
      · obtain ⟨hb1, hlo, hhi⟩ := hsel
        have hfs : (b - 80) % 256 = 1 ∨ (b - 80) % 256 = 2 ∨ (b - 80) % 256 = 3 := by omega
        have hfs0 : (b - 80) % 256 ≠ 0 := by omega
        simp [quiet, h0, hb1, hfs, hfs0]
      · exact ⟨rfl, by omega⟩
  · unfold quiet at hq
    rw [if_neg h0] at hq
    split_ifs at hq with h123 hbc
    · have hlt : h.parser.byte_count < 10 := by omega
      simp only [parse_byte, parse_switch, if_neg h0, if_pos h123, if_pos hlt, s0, s1, s2, s3]
      have hne : ¬ ((h.parser.byte_count + 1) % 256 = 1 ∧ 81 ≤ b ∧ b ≤ 83) := by omega
      rw [if_neg hne]
      refine ⟨rfl, ?_⟩
      simp only [quiet, s1, if_neg h0, if_pos h123]
      have hbc2 : 2 ≤ (h.parser.byte_count + 1) % 256 := by omega
      rw [if_pos hbc, if_pos hbc2]
      omega
    · omega
    · omega

/-- No more than `quiet` bytes leave the readings unchanged. -/
theorem quiet_feed (bytes : List Nat) :
    ∀ h : JY901S_Handle, bytes.length ≤ quiet h → (feed h bytes).sensor_data = h.sensor_data := by
  induction bytes with
  | nil => intro h _; rfl
  | cons b bs ih =>
    intro h hlen
    simp only [List.length_cons] at hlen
    obtain ⟨hd, hq⟩ := quiet_step h b (by omega)
    rw [feed_cons, ih _ (by omega), hd]

theorem quiet_idle (h : JY901S_Handle) (hi : Idle h) : quiet h = 10 := by
  obtain ⟨h1, h2⟩ := hi
  simp [quiet, h1, h2]

theorem quiet_syncing (h : JY901S_Handle) (hs : Syncing h) : quiet h = 9 := by
  obtain ⟨h1, h2, -⟩ := hs
  simp [quiet, h1, h2]

/-- In Idle every byte other than the header leaves the handle unchanged. -/
theorem parse_byte_idle_other (h : JY901S_Handle) (hi : Idle h) (b : Nat) (hb : b ≠ 0x55) :
    parse_byte h b = h := by
  obtain ⟨h1, h2⟩ := hi
  simp [parse_byte, parse_switch, h1, h2, hb]

/-- In Syncing every byte that is not a selector leaves the handle unchanged:
the header stays armed. -/
theorem parse_byte_syncing_other (h : JY901S_Handle) (hs : Syncing h) (b : Nat)
    (hb : ¬ isSelector b) : parse_byte h b = h := by
  obtain ⟨h1, h2, -⟩ := hs
  have hr : ¬ (81 ≤ b ∧ b ≤ 83) := by
    unfold isSelector at hb
    omega
  simp [parse_byte, parse_switch, h1, h2, hr]

/-- A frame whose 11th byte differs from the running checksum is dropped: the
parser is reset without decoding. -/
theorem feed_bad_frame (h : JY901S_Handle) (hi : Idle h) (c q0 q1 q2 q3 q4 q5 q6 q7 x : Nat)
    (hc : isSelector c)
    (hx : (0x55 + c + q0 + q1 + q2 + q3 + q4 + q5 + q6 + q7) % 256 ≠ x) :
    feed h [0x55, c, q0, q1, q2, q3, q4, q5, q6, q7, x] =
      JY901S_ResetParser (collected h c q0 q1 q2 q3 q4 q5 q6 q7) := by
  have hsplit : [0x55, c, q0, q1, q2, q3, q4, q5, q6, q7, x] =
      [0x55, c, q0, q1, q2, q3, q4, q5, q6, q7] ++ [x] := rfl
  rw [hsplit, feed_append, feed_collect h hi _ _ _ _ _ _ _ _ _ hc, feed_cons, feed_nil,
    parse_byte_collected _ _ _ _ _ _ _ _ _ _ _ hc, if_neg hx]

/-- Inverting one of the 8 bits of a byte gives a byte. -/
theorem xor_bit_lt (b j : Nat) (hb : b < 256) (hj : j < 8) : b ^^^ 2 ^ j < 256 := by
  have h2 : 2 ^ j < 2 ^ 8 := Nat.pow_lt_pow_right (by decide) hj
  exact Nat.xor_lt_two_pow (n := 8) hb h2

/-- Inverting one bit changes the byte. -/
theorem xor_bit_ne (b j : Nat) : b ^^^ 2 ^ j ≠ b := by
  intro h
  have h1 : b ^^^ (b ^^^ 2 ^ j) = b ^^^ b := by rw [h]
  rw [Nat.xor_cancel_left, Nat.xor_self] at h1
  exact absurd h1 (by positivity)

/-- A well-formed frame with one bit inverted leaves the readings unchanged
once all its 11 bytes are fed. -/
theorem feed_flipped (h : JY901S_Handle) (f : Frame) (k : Nat) (hi : Idle h) (hf : f.wf)
    (hk : k < 88) : (feed h (flipBit f.bytes k)).sensor_data = h.sensor_data := by
  have hi8 : k / 8 < 11 := by omega
  have hj8 : k % 8 < 8 := by omega
  obtain ⟨hc, h0, h1, h2, h3, h4, h5, h6, h7⟩ := hf
  have hclt : f.sel < 256 := by unfold isSelector at hc; omega
  unfold flipBit
  generalize k / 8 = i at hi8
  generalize k % 8 = j at hj8
  have key : ∀ c q0 q1 q2 q3 q4 q5 q6 q7 x : Nat, isSelector c →
      (0x55 + c + q0 + q1 + q2 + q3 + q4 + q5 + q6 + q7) % 256 ≠ x →
      (feed h [0x55, c, q0, q1, q2, q3, q4, q5, q6, q7, x]).sensor_data = h.sensor_data := by
    intro c q0 q1 q2 q3 q4 q5 q6 q7 x hc hx
    rw [feed_bad_frame h hi c q0 q1 q2 q3 q4 q5 q6 q7 x hc hx]
    rfl
  interval_cases i
  · -- header byte
    show (feed h ((0x55 ^^^ 2 ^ j) :: _)).sensor_data = _
    rw [feed_cons, parse_byte_idle_other h hi _ (xor_bit_ne 0x55 j)]
    exact quiet_feed _ h (by rw [quiet_idle h hi]; simp)
  · -- selector byte
    show (feed h (0x55 :: (f.sel ^^^ 2 ^ j) :: _)).sensor_data = _
    by_cases hsel : isSelector (f.sel ^^^ 2 ^ j)
    · apply key _ _ _ _ _ _ _ _ _ _ hsel
      have hne := xor_bit_ne f.sel j
      have hlt := xor_bit_lt f.sel j hclt hj8
      unfold Frame.checksum
      omega
    · have hs := syncing_after_header h hi
      rw [feed_cons, feed_cons, parse_byte_syncing_other _ hs _ hsel,
        quiet_feed _ _ (by rw [quiet_syncing _ hs]; simp), parse_byte_header h hi]
  all_goals
    apply key _ _ _ _ _ _ _ _ _ _ hc
    first
    | exact (xor_bit_ne _ j).symm
    | (have hne := xor_bit_ne f.p0 j
       have hlt := xor_bit_lt f.p0 j h0 hj8
       unfold Frame.checksum
       omega)
    | (have hne := xor_bit_ne f.p1 j
       have hlt := xor_bit_lt f.p1 j h1 hj8
       unfold Frame.checksum
       omega)
    | (have hne := xor_bit_ne f.p2 j
       have hlt := xor_bit_lt f.p2 j h2 hj8
       unfold Frame.checksum
       omega)
    | (have hne := xor_bit_ne f.p3 j
       have hlt := xor_bit_lt f.p3 j h3 hj8
       unfold Frame.checksum
       omega)
    | (have hne := xor_bit_ne f.p4 j
       have hlt := xor_bit_lt f.p4 j h4 hj8
       unfold Frame.checksum
       omega)
    | (have hne := xor_bit_ne f.p5 j
       have hlt := xor_bit_lt f.p5 j h5 hj8
       unfold Frame.checksum
       omega)
    | (have hne := xor_bit_ne f.p6 j
       have hlt := xor_bit_lt f.p6 j h6 hj8
       unfold Frame.checksum
       omega)
    | (have hne := xor_bit_ne f.p7 j
       have hlt := xor_bit_lt f.p7 j h7 hj8
       unfold Frame.checksum
       omega)

theorem flipAt_length (bs : List Nat) : ∀ i j, (flipAt bs i j).length = bs.length := by
  induction bs with
  | nil => intro i j; rfl
  | cons b bs ih =>
    intro i j
    cases i with
    | zero => rfl
    | succ i => simp [flipAt, ih]

theorem flipBit_length (f : Frame) (k : Nat) : (flipBit f.bytes k).length = 11 := by
  unfold flipBit
  rw [flipAt_length]
  rfl

theorem feed_no_selector_syncing (bytes : List Nat) (h : JY901S_Handle) (hs : Syncing h)
    (hno : ∀ x ∈ bytes, ¬ isSelector x) : feed h bytes = h := by
  induction bytes with
  | nil => rfl
  | cons b bs ih =>
    rw [feed_cons, parse_byte_syncing_other h hs b (hno b (List.mem_cons_self b bs))]
    exact ih (fun x hx => hno x (List.mem_cons_of_mem b hx))

/-- Junk with no selector after a header leaves an Idle parser in Idle or in
Syncing, all else unchanged. -/
theorem feed_junk (bytes : List Nat) (h : JY901S_Handle) (hi : Idle h)
    (hj : bytes.Pairwise (fun a b => ¬ headerThenSelector a b)) :
    feed h bytes = h ∨ feed h bytes = parse_byte h 0x55 := by
  induction bytes with
  | nil => exact Or.inl rfl
  | cons b bs ih =>
    rw [List.pairwise_cons] at hj
    by_cases hb : b = 0x55
    · subst hb
      right
      rw [feed_cons]
      apply feed_no_selector_syncing _ _ (syncing_after_header h hi)
      intro x hx hsel
      exact hj.1 x hx ⟨rfl, hsel⟩
    · rw [feed_cons, parse_byte_idle_other h hi b hb]
      exact ih hj.2

/-- A frame decodes from Syncing as it does from Idle. -/
theorem feed_frame_syncing (h : JY901S_Handle) (hi : Idle h) (f : Frame) :
    feed (parse_byte h 0x55) f.bytes = feed h f.bytes := by
  have hs := syncing_after_header h hi
  have h55 : ¬ isSelector 0x55 := by decide
  show feed (parse_byte h 0x55) (0x55 :: _) = feed h (0x55 :: _)
  rw [feed_cons h 0x55, feed_cons (parse_byte h 0x55) 0x55, parse_byte_syncing_other _ hs _ h55]

theorem reading_store_same (d : JY901S_Data) (f : Frame) (hf : f.wf) :
    reading (store d f) f.sel = f.decoded := by
  rcases hf.1 with hc | hc | hc <;> simp [reading, store, hc]

theorem reading_store_other (d : JY901S_Data) (f : Frame) (c : Nat) (hc : isSelector c)
    (hne : c ≠ f.sel) (hf : f.wf) : reading (store d f) c = reading d c := by
  rcases hf.1 with hs | hs | hs <;> rcases hc with hc | hc | hc <;>
    simp_all [reading, store]

theorem idle_after_frame (h : JY901S_Handle) (hi : Idle h) (f : Frame) (hf : f.wf) :
    Idle (feed h f.bytes) :=
  ⟨(feed_frame_reset h hi f hf).1, (feed_frame_reset h hi f hf).2.1⟩

/-- A stream of well-formed frames applies `store` frame by frame and ends in
Idle. -/
theorem feed_stream (fs : List Frame) :
    ∀ h : JY901S_Handle, Idle h → (∀ f ∈ fs, f.wf) →
      (feed h (stream fs)).sensor_data = fs.foldl store h.sensor_data ∧
        Idle (feed h (stream fs)) := by
  induction fs with
  | nil => intro h hi _; exact ⟨rfl, hi⟩
  | cons f fs ih =>
    intro h hi hwf
    have hf : f.wf := hwf f (List.mem_cons_self f fs)
    have hrest : ∀ g ∈ fs, g.wf := fun g hg => hwf g (List.mem_cons_of_mem f hg)
    obtain ⟨hd, hidle⟩ := ih (feed h f.bytes) (idle_after_frame h hi f hf) hrest
    show (feed h (f.bytes ++ stream fs)).sensor_data = _ ∧ Idle (feed h (f.bytes ++ stream fs))
    rw [feed_append]
    refine ⟨?_, hidle⟩
    rw [hd, feed_frame_data h hi f hf]
    rfl

theorem lastOf_concat (c : Nat) (fs : List Frame) (f : Frame) :
    lastOf c (fs ++ [f]) = if f.sel = c then some f else lastOf c fs := by
  unfold lastOf
  rw [List.filter_append]
  by_cases hc : f.sel = c
  · simp [List.filter, hc]
  · simp [List.filter, hc]

/-- After storing a list of frames a category holds the conversion of its
last frame, or its prior value. -/
theorem reading_foldl_store (c : Nat) (hc : isSelector c) (d : JY901S_Data) (fs : List Frame)
    (hwf : ∀ f ∈ fs, f.wf) :
    reading (fs.foldl store d) c =
      match lastOf c fs with
      | some f => f.decoded
      | none => reading d c := by
  induction fs using List.reverseRecOn with
  | nil => rfl
  | append_singleton fs f ih =>
    have hf : f.wf := hwf f (by simp)
    have hrest : ∀ g ∈ fs, g.wf := fun g hg => hwf g (by simp [hg])
    rw [List.foldl_append, lastOf_concat]
    simp only [List.foldl_cons, List.foldl_nil]
    by_cases hsel : f.sel = c
    · rw [if_pos hsel, ← hsel]
      exact reading_store_same _ f hf
    · rw [if_neg hsel, reading_store_other _ f c hc (fun e => hsel e.symm) hf]
      exact ih hrest

/-- Bytes without a header leave an Idle handle unchanged. -/
theorem feed_no_header (bytes : List Nat) (h : JY901S_Handle) (hi : Idle h)
    (hno : 0x55 ∉ bytes) : feed h bytes = h := by
  induction bytes with
  | nil => rfl
  | cons b bs ih =>
    have hb : b ≠ 0x55 := fun e => hno (e ▸ List.mem_cons_self b bs)
    rw [feed_cons, parse_byte_idle_other h hi b hb]
    exact ih (fun hm => hno (List.mem_cons_of_mem b hm))

/-- Range of the `int16_t` cast. -/
theorem toInt16_bounds (n : Nat) : -32768 ≤ toInt16 n ∧ toInt16 n < 32768 := by
  unfold toInt16
  split_ifs <;> omega

theorem raw16_bounds (hi lo : Nat) : -32768 ≤ raw16 hi lo ∧ raw16 hi lo < 32768 :=
  toInt16_bounds _

theorem raw16_bounds_rat (hi lo : Nat) :
    (-32768 : ℚ) ≤ (raw16 hi lo : ℚ) ∧ (raw16 hi lo : ℚ) < 32768 := by
  obtain ⟨h1, h2⟩ := raw16_bounds hi lo
  exact ⟨by exact_mod_cast h1, by exact_mod_cast h2⟩

/-- The `switch` either keeps the readings or decodes the current frame. -/
theorem parse_switch_data (h : JY901S_Handle) (b : Nat) :
    (parse_switch h b).sensor_data = h.sensor_data ∨
      (parse_switch h b).sensor_data = (update_sensor_data h).sensor_data := by
  have s0 := store_data_sensor h b
  unfold parse_switch validate_checksum
  simp only []
  split_ifs
  · exact Or.inl rfl
  · exact Or.inl rfl
  · exact Or.inl s0
  · exact Or.inr rfl
  · exact Or.inl rfl
  · exact Or.inl rfl

/-- The `switch` either keeps the frame state or clears it. -/
theorem parse_switch_state (h : JY901S_Handle) (b : Nat) :
    (parse_switch h b).parser.frame_state = h.parser.frame_state ∨
      (parse_switch h b).parser.frame_state = 0 := by
  obtain ⟨s1, -, -⟩ := store_data_fields h b
  unfold parse_switch
  simp only []
  split_ifs
  · exact Or.inl rfl
  · exact Or.inl rfl
  · exact Or.inl s1
  · exact Or.inr rfl
  · exact Or.inr rfl

theorem parse_byte_data (h : JY901S_Handle) (b : Nat) :
    (parse_byte h b).sensor_data = (parse_switch h b).sensor_data := by
  unfold parse_byte
  simp only []
  split_ifs <;> rfl

/-- A byte changes the frame state only to clear it or, on a selector, to
the selector's category. -/
theorem parse_byte_state (h : JY901S_Handle) (b : Nat) :
    (parse_byte h b).parser.frame_state = (parse_switch h b).parser.frame_state ∨
      ((0x51 ≤ b ∧ b ≤ 0x53) ∧ (parse_byte h b).parser.frame_state = (b - 0x50) % 256) := by
  unfold parse_byte
  simp only []
  split_ifs with hsel
  · exact Or.inr ⟨hsel.2, rfl⟩
  · exact Or.inl rfl

/-- Decoding never writes a category other than the one the frame state
names. -/
theorem update_keeps (h : JY901S_Handle) (c : Nat) (hc : isSelector c)
    (hne : h.parser.frame_state ≠ c - 0x50) :
    reading (update_sensor_data h).sensor_data c = reading h.sensor_data c := by
  unfold update_sensor_data
  rcases hc with rfl | rfl | rfl <;> split_ifs <;>
    first
    | rfl
    | (exfalso; omega)

theorem parse_byte_keeps (h : JY901S_Handle) (b c : Nat) (hc : isSelector c) (hb : b ≠ c)
    (hne : h.parser.frame_state ≠ c - 0x50) :
    (parse_byte h b).parser.frame_state ≠ c - 0x50 ∧
      reading (parse_byte h b).sensor_data c = reading h.sensor_data c := by
  have hc0 : c - 0x50 ≠ 0 := by unfold isSelector at hc; omega
  constructor
  · rcases parse_byte_state h b with e | ⟨hr, e⟩
    · rcases parse_switch_state h b with e2 | e2
      · rw [e, e2]; exact hne
      · rw [e, e2]; exact fun e3 => hc0 e3.symm
    · rw [e]
      unfold isSelector at hc
      omega
  · rw [parse_byte_data]
    rcases parse_switch_data h b with e | e
    · rw [e]
    · rw [e]; exact update_keeps h c hc hne

/-- Bytes without the selector of a category never change its reading, as
long as the frame state does not name it at the start. -/
theorem feed_keeps (c : Nat) (hc : isSelector c) (bytes : List Nat) :
    ∀ h : JY901S_Handle, c ∉ bytes → h.parser.frame_state ≠ c - 0x50 →
      reading (feed h bytes).sensor_data c = reading h.sensor_data c := by
  induction bytes with
  | nil => intro h _ _; rfl
  | cons b bs ih =>
    intro h hno hne
    have hb : b ≠ c := fun e => hno (e ▸ List.mem_cons_self b bs)
    obtain ⟨h1, h2⟩ := parse_byte_keeps h b c hc hb hne
    rw [feed_cons, ih _ (fun hm => hno (List.mem_cons_of_mem b hm)) h1, h2]

/-- The `switch` changes the readings only by decoding the current frame, in a
collecting state whose byte count is not below 10, on a byte equal to the low
8 bits of the running checksum. -/
theorem parse_switch_data_cases (h : JY901S_Handle) (b : Nat) :
    (parse_switch h b).sensor_data = h.sensor_data ∨
      (Collecting h ∧ 10 ≤ h.parser.byte_count ∧ h.parser.check_sum % 256 = b ∧
        (parse_switch h b).sensor_data = (update_sensor_data h).sensor_data) := by
  have s0 := store_data_sensor h b
  unfold parse_switch validate_checksum
  simp only [and_255]
  split_ifs with h0 hb h123 hlt hcs
  · exact Or.inl rfl
  · exact Or.inl rfl
  · exact Or.inl s0
  · exact Or.inr ⟨h123, by omega, hcs, rfl⟩
  · exact Or.inl rfl
  · exact Or.inl rfl

theorem update_acc_cases (h : JY901S_Handle) :
    (update_sensor_data h).sensor_data.acc = h.sensor_data.acc ∨ h.parser.frame_state = 1 := by
  unfold update_sensor_data
  split_ifs with h1 h2 h3
  · exact Or.inr h1
  · exact Or.inl rfl
  · exact Or.inl rfl
  · exact Or.inl rfl

theorem update_gyro_cases (h : JY901S_Handle) :
    (update_sensor_data h).sensor_data.gyro = h.sensor_data.gyro ∨ h.parser.frame_state = 2 := by
  unfold update_sensor_data
  split_ifs with h1 h2 h3
  · exact Or.inl rfl
  · exact Or.inr h2
  · exact Or.inl rfl
  · exact Or.inl rfl

theorem update_angle_cases (h : JY901S_Handle) :
    (update_sensor_data h).sensor_data.angle = h.sensor_data.angle ∨
      h.parser.frame_state = 3 := by
  unfold update_sensor_data
  split_ifs with h1 h2 h3
  · exact Or.inl rfl
  · exact Or.inl rfl
  · exact Or.inr h3
  · exact Or.inl rfl

/-- One byte preserves the consistency of byte count and frame state, and
keeps the checksum a byte. -/
theorem parserInv_step (h : JY901S_Handle) (b : Nat)
    (hinv : ParserInv h ∧ h.parser.check_sum < 256) :
    ParserInv (parse_byte h b) ∧ (parse_byte h b).parser.check_sum < 256 := by
  obtain ⟨hinv, hcs⟩ := hinv
  obtain ⟨s1, s2, s3⟩ := store_data_fields h b
  unfold ParserInv at hinv
  rcases hinv with ⟨h0, hbc⟩ | ⟨h123, hlo, hhi⟩
  · by_cases hb : b = 0x55 ∧ h.parser.byte_count = 0
    · obtain ⟨rfl, hb0⟩ := hb
      simp [parse_byte, parse_switch, ParserInv, h0, hb0]
    · have hsw : parse_switch h b = h := by simp [parse_switch, h0, hb]
      unfold parse_byte
      rw [hsw]
      simp only []
      split_ifs with hsel
      · obtain ⟨hb1, hlo, hhi⟩ := hsel
        have hfs : (b - 80) % 256 = 1 ∨ (b - 80) % 256 = 2 ∨ (b - 80) % 256 = 3 := by omega
        refine ⟨Or.inr ⟨hfs, le_refl 2, (by decide : 2 ≤ 10)⟩, ?_⟩
        exact Nat.mod_lt _ (by decide)
      · exact ⟨Or.inl ⟨h0, hbc⟩, hcs⟩
  · have hn0 : h.parser.frame_state ≠ 0 := by omega
    by_cases hlt : h.parser.byte_count < 10
    · simp only [parse_byte, parse_switch, if_neg hn0, if_pos h123, if_pos hlt, s1, s2, s3]
      have hne : ¬ ((h.parser.byte_count + 1) % 256 = 1 ∧ 81 ≤ b ∧ b ≤ 83) := by omega
      rw [if_neg hne]
      refine ⟨Or.inr ⟨h123, ?_, ?_⟩, Nat.mod_lt _ (by decide)⟩
      · show 2 ≤ (h.parser.byte_count + 1) % 256
        omega
      · show (h.parser.byte_count + 1) % 256 ≤ 10
        omega
    · simp only [parse_byte, parse_switch, if_neg hn0, if_pos h123, if_neg hlt]
      have hbc : ∀ g : JY901S_Handle, (JY901S_ResetParser g).parser.byte_count = 0 := fun _ => rfl
      simp only [hbc]
      refine ⟨Or.inl ⟨?_, Or.inl ?_⟩, ?_⟩
      · simp [JY901S_ResetParser]
      · simp [JY901S_ResetParser]
      · simp [JY901S_ResetParser]

/-- Every state reached from a reset parser is consistent. -/
theorem parserInv_feed (bytes : List Nat) :
    ∀ h : JY901S_Handle, ParserInv h ∧ h.parser.check_sum < 256 →
      ParserInv (feed h bytes) ∧ (feed h bytes).parser.check_sum < 256 := by
  induction bytes with
  | nil => intro h hinv; exact hinv
  | cons b bs ih =>
    intro h hinv
    rw [feed_cons]
    exact ih _ (parserInv_step h b hinv)

theorem parserInv_reset (g : JY901S_Handle) :
    ParserInv (JY901S_ResetParser g) ∧ (JY901S_ResetParser g).parser.check_sum < 256 :=
  ⟨Or.inl ⟨rfl, Or.inl rfl⟩, (by decide : 0 < 256)⟩

/-- In a collecting state with a byte count from 2 to 9 the byte is written
at index `byte_count - 2` of the selected buffer. -/
theorem store_data_writes (h : JY901S_Handle) (b : Nat) (hc : Collecting h)
    (hlo : 2 ≤ h.parser.byte_count) (hhi : h.parser.byte_count < 10) (i : Fin 8)
    (hi : i.val + 2 = h.parser.byte_count) : activeBuffer (store_data h b) i = b := by
  have hidx : (h.parser.byte_count + 256 - 2) % 256 = i.val := by omega
  have hge : ¬ i.val ≥ 8 := by omega
  unfold store_data
  simp only [hidx, if_neg hge]
  rcases hc with h1 | h1 | h1 <;> simp [h1, activeBuffer, setAt]

/-- With header seen (frame state 0, byte count 1) every byte that is not a
selector leaves the handle unchanged, whatever the checksum. -/
theorem parse_byte_armed_other (h : JY901S_Handle) (h1 : h.parser.frame_state = 0)
    (h2 : h.parser.byte_count = 1) (b : Nat) (hb : ¬ isSelector b) : parse_byte h b = h := by
  have hr : ¬ (81 ≤ b ∧ b ≤ 83) := by
    unfold isSelector at hb
    omega
  simp [parse_byte, parse_switch, h1, h2, hr]

/-- With header seen (frame state 0, byte count 1) a selector starts the
collection of its category. -/
theorem parse_byte_armed_selector (h : JY901S_Handle) (h1 : h.parser.frame_state = 0)
    (h2 : h.parser.byte_count = 1) (c : Nat) (hc : isSelector c) :
    (parse_byte h c).parser.frame_state = c - 0x50 ∧ (parse_byte h c).parser.byte_count = 2 ∧
      (parse_byte h c).parser.check_sum = (h.parser.check_sum + c) % 256 := by
  rcases hc with rfl | rfl | rfl <;> simp [parse_byte, parse_switch, h1, h2]

theorem junk_of_no_selector (l : List Nat) (hno : ∀ x ∈ l, ¬ isSelector x) :
    l.Pairwise (fun a b => ¬ headerThenSelector a b) := by
  induction l with
  | nil => exact List.Pairwise.nil
  | cons a l ih =>
    rw [List.pairwise_cons]
    exact ⟨fun b hb hts => hno b (List.mem_cons_of_mem a hb) hts.2,
      ih (fun x hx => hno x (List.mem_cons_of_mem a hx))⟩

/-- The first 10 bytes of a frame leave the readings unchanged from Syncing
as well. -/
theorem feed_take_syncing (h : JY901S_Handle) (hi : Idle h) (f : Frame) (n : Nat)
    (hn : n ≤ 10) : (feed (parse_byte h 0x55) (f.bytes.take n)).sensor_data = h.sensor_data := by
  have hs := syncing_after_header h hi
  have h55 : ¬ isSelector 0x55 := by decide
  have hd : (parse_byte h 0x55).sensor_data = h.sensor_data := by
    rw [parse_byte_header h hi]
  cases n with
  | zero => exact hd
  | succ k =>
    show (feed (parse_byte h 0x55) (0x55 :: List.take k _)).sensor_data = _
    rw [feed_cons, parse_byte_syncing_other _ hs _ h55, ← hd]
    apply quiet_feed
    rw [quiet_syncing _ hs]
    exact le_trans (List.length_take_le k _) (by omega)

/-- The decoded value of a frame reads the selector and the payload bytes 0
to 5 only. -/
theorem decoded_congr (f g : Frame) (hs : f.sel = g.sel) (h0 : f.p0 = g.p0)
    (h1 : f.p1 = g.p1) (h2 : f.p2 = g.p2) (h3 : f.p3 = g.p3) (h4 : f.p4 = g.p4)
    (h5 : f.p5 = g.p5) : f.decoded = g.decoded := by
  unfold Frame.decoded Frame.documented
  rw [hs, h0, h1, h2, h3, h4, h5]

/-- For angular rate and orientation the decoded value is the documented
conversion. -/
theorem decoded_exact (f : Frame) (hs : f.sel ≠ 0x51) : f.decoded = f.documented := by
  unfold Frame.decoded
  rw [if_neg hs]

theorem closeTo_refl (v : Vec3) : closeTo v v := by
  unfold closeTo
  simp only [sub_self, abs_zero]
  exact ⟨by positivity, by positivity, by positivity⟩

/-- The decoded value of a frame is within 1e-7 relative of the documented
conversion in every component. -/
theorem decoded_close (f : Frame) : closeTo f.decoded f.documented := by
  by_cases hs : f.sel = 0x51
  · unfold Frame.decoded Frame.documented
    rw [if_pos hs, if_pos hs]
    exact ⟨f32Acc_close _, f32Acc_close _, f32Acc_close _⟩
  · rw [decoded_exact f hs]
    exact closeTo_refl _

/-- After a well-formed frame fed from Idle the reading of its category is its
decoded value. -/
theorem frame_reading (h : JY901S_Handle) (hi : Idle h) (f : Frame) (hf : f.wf) :
    reading (feed h f.bytes).sensor_data f.sel = f.decoded := by
  rw [feed_frame_data h hi f hf]
  exact reading_store_same _ f hf

theorem f32Acc_zero : f32Acc 0 = 0 := by
  unfold f32Acc
  rw [Int.cast_zero, zero_div, zero_mul, roundF32_zero]

/-- The raw value -32768 is stored as -5141509/32768. -/
theorem f32Acc_fullScale : f32Acc (-32768) = -(5141509 / 32768) := by
  unfold f32Acc
  have e : ((-32768 : ℤ) : ℚ) / 32768 * (5141509 / 32768) =
      ((-5141509 : ℤ) : ℚ) * (2 : ℚ) ^ (-15 : ℤ) := by norm_num
  rw [e, roundF32_exact (-5141509) (-15) (by norm_num)]
  norm_num

theorem decoded_fullScale : fullScaleAccFrame.decoded = (-(5141509 / 32768), 0, 0) := by
  have e1 : le16 0x00 0x80 = -32768 := by decide
  have e2 : le16 0 0 = 0 := by decide
  simp only [Frame.decoded, fullScaleAccFrame, if_true, e1, e2, f32Acc_fullScale, f32Acc_zero]

theorem documented_fullScale : fullScaleAccFrame.documented = (-(196133 / 1250), 0, 0) := by
  have e1 : le16 0x00 0x80 = -32768 := by decide
  have e2 : le16 0 0 = 0 := by decide
  simp only [Frame.documented, fullScaleAccFrame, if_true, e1, e2, docAcc]
  norm_num

/-- The full-scale acceleration frame is not decoded to its documented
conversion: -156.906402587890625 against -156.9064. -/
theorem fullScale_ne : fullScaleAccFrame.decoded ≠ fullScaleAccFrame.documented := by
  rw [decoded_fullScale, documented_fullScale]
  intro e
  have e1 := congrArg Prod.fst e
  norm_num at e1

/-- One byte preserves `SyncInv`. -/
theorem syncInv_step (h : JY901S_Handle) (b : Nat) (hinv : SyncInv h) :
    SyncInv (parse_byte h b) := by
  obtain ⟨s1, s2, s3⟩ := store_data_fields h b
  unfold SyncInv at hinv
  rcases hinv with ⟨h0, hbc⟩ | ⟨h123, hlo, hhi⟩
  · by_cases hb : b = 0x55 ∧ h.parser.byte_count = 0
    · obtain ⟨rfl, hb0⟩ := hb
      simp [parse_byte, parse_switch, SyncInv, h0, hb0]
    · have hsw : parse_switch h b = h := by simp [parse_switch, h0, hb]
      unfold parse_byte
      rw [hsw]
      simp only []
      split_ifs with hsel
      · obtain ⟨hb1, hlo, hhi⟩ := hsel
        have hfs : (b - 80) % 256 = 1 ∨ (b - 80) % 256 = 2 ∨ (b - 80) % 256 = 3 := by omega
        exact Or.inr ⟨hfs, le_refl 2, (by decide : 2 ≤ 10)⟩
      · exact Or.inl ⟨h0, hbc⟩
  · unfold Collecting at h123
    have hn0 : h.parser.frame_state ≠ 0 := by omega
    by_cases hlt : h.parser.byte_count < 10
    · simp only [parse_byte, parse_switch, if_neg hn0, if_pos h123, if_pos hlt, s1, s2, s3]
      have hne : ¬ ((h.parser.byte_count + 1) % 256 = 1 ∧ 81 ≤ b ∧ b ≤ 83) := by omega
      rw [if_neg hne]
      refine Or.inr ⟨h123, ?_, ?_⟩
      · show 2 ≤ (h.parser.byte_count + 1) % 256
        omega
      · show (h.parser.byte_count + 1) % 256 ≤ 10
        omega
    · simp only [parse_byte, parse_switch, if_neg hn0, if_pos h123, if_neg hlt]
      have hbc : ∀ g : JY901S_Handle, (JY901S_ResetParser g).parser.byte_count = 0 := fun _ => rfl
      simp only [hbc]
      refine Or.inl ⟨?_, Or.inl ?_⟩
      · simp [JY901S_ResetParser]
      · simp [JY901S_ResetParser]

/-- Every state met from an Idle parser satisfies `SyncInv`. -/
theorem syncInv_feed (bytes : List Nat) :
    ∀ h : JY901S_Handle, SyncInv h → SyncInv (feed h bytes) := by
  induction bytes with
  | nil => intro h hinv; exact hinv
  | cons b bs ih =>
    intro h hinv
    rw [feed_cons]
    exact ih _ (syncInv_step h b hinv)

/-- A well-formed frame fed from Syncing is decoded as it is from Idle. -/
theorem feed_frame_data_syncing (g : JY901S_Handle) (hs : Syncing g) (f : Frame) (hf : f.wf) :
    (feed g f.bytes).sensor_data = store g.sensor_data f := by
  have h55 : ¬ isSelector 0x55 := by decide
  have hsplit : f.bytes =
      0x55 :: ([f.sel, f.p0, f.p1, f.p2, f.p3, f.p4, f.p5, f.p6, f.p7] ++ [f.checksum]) := rfl
  rw [hsplit, feed_cons, parse_byte_syncing_other g hs 0x55 h55, feed_append,
    feed_collect_sync g hs _ _ _ _ _ _ _ _ _ hf.1, feed_cons, feed_nil,
    parse_byte_collected _ _ _ _ _ _ _ _ _ _ _ hf.1]
  have hcs : (0x55 + f.sel + f.p0 + f.p1 + f.p2 + f.p3 + f.p4 + f.p5 + f.p6 + f.p7) % 256 =
      f.checksum := rfl
  rw [if_pos hcs]
  exact update_collected g f hf

/-- After junk fed from Idle that leaves the frame state at 0, a well-formed
frame is decoded. -/
theorem frame_after_junk (h : JY901S_Handle) (hi : Idle h) (junk : List Nat) (f : Frame)
    (hf : f.wf) (hfs : (feed h junk).parser.frame_state = 0) :
    reading (feed h (junk ++ f.bytes)).sensor_data f.sel = f.decoded := by
  have hinv : SyncInv (feed h junk) := syncInv_feed junk h (Or.inl ⟨hi.1, Or.inl hi.2⟩)
  rw [feed_append]
  unfold SyncInv Collecting at hinv
  rcases hinv with ⟨h0, hbc | ⟨hbc, hcs⟩⟩ | ⟨h123, -, -⟩
  · exact frame_reading _ ⟨h0, hbc⟩ f hf
  · rw [feed_frame_data_syncing _ ⟨h0, hbc, hcs⟩ f hf]
    exact reading_store_same _ f hf
  · omega

/-! ## Claims -/

/-- C1 as stated fails for acceleration: the code computes in `float`, and
the frame with raw X = -32768 stores -5141509/32768 (-156.906402587890625)
where the documented conversion in exact arithmetic is -156.9064. -/
theorem C1_counterexample :
    Idle sampleHandle ∧ fullScaleAccFrame.wf ∧
      reading (feed sampleHandle fullScaleAccFrame.bytes).sensor_data fullScaleAccFrame.sel
        ≠ fullScaleAccFrame.documented := by
  refine ⟨by decide, by decide, ?_⟩
  rw [frame_reading sampleHandle (by decide) fullScaleAccFrame (by decide)]
  exact fullScale_ne

/-- C1 (round trip, amended): from an Idle parser with arbitrary readings,
checksum and buffers, the 11 bytes of a well-formed frame leave the readings
unchanged after each of the first 10 bytes; after the 11th byte the reading of
the selected category is the decoded value of the payload, which is the
documented conversion exactly for angular rate and orientation and, for
acceleration, the binary32 number nearest to raw/32768 * 5141509/32768, within
1e-7 relative of the documented conversion; and the parser is Idle again with
byte count 0 and checksum 0. -/
theorem C1_round_trip (h : JY901S_Handle) (f : Frame) (hi : Idle h) (hf : f.wf) :
    (∀ n, n ≤ 10 → (feed h (f.bytes.take n)).sensor_data = h.sensor_data) ∧
      reading (feed h f.bytes).sensor_data f.sel = f.decoded ∧
      (f.sel ≠ 0x51 → reading (feed h f.bytes).sensor_data f.sel = f.documented) ∧
      closeTo (reading (feed h f.bytes).sensor_data f.sel) f.documented ∧
      (feed h f.bytes).parser.frame_state = 0 ∧
      (feed h f.bytes).parser.byte_count = 0 ∧
      (feed h f.bytes).parser.check_sum = 0 := by
  have hr := frame_reading h hi f hf
  refine ⟨?_, hr, ?_, ?_, feed_frame_reset h hi f hf⟩
  · intro n hn
    apply quiet_feed
    rw [quiet_idle h hi]
    exact le_trans (List.length_take_le n _) hn
  · intro hs
    rw [hr, decoded_exact f hs]
  · rw [hr]
    exact decoded_close f

/-- Witness of C1 at a sample handle and the full-scale acceleration frame. -/
theorem C1_round_trip_witness :
    Idle sampleHandle ∧ fullScaleAccFrame.wf ∧
      closeTo (reading (feed sampleHandle fullScaleAccFrame.bytes).sensor_data
        fullScaleAccFrame.sel) fullScaleAccFrame.documented :=
  ⟨by decide, by decide,
    (C1_round_trip sampleHandle fullScaleAccFrame (by decide) (by decide)).2.2.2.1⟩

/-- C2 (checksum rejection): a well-formed frame with any single one of its
88 bits inverted, fed to an Idle parser, leaves all stored readings equal to
their prior values after every one of the 11 bytes. -/
theorem C2_checksum_rejection (h : JY901S_Handle) (f : Frame) (k : Nat) (hi : Idle h)
    (hf : f.wf) (hk : k < 88) :
    ∀ n, n ≤ 11 → (feed h ((flipBit f.bytes k).take n)).sensor_data = h.sensor_data := by
  intro n hn
  rcases Nat.lt_or_ge n 11 with hlt | hge
  · apply quiet_feed
    rw [quiet_idle h hi]
    exact le_trans (List.length_take_le n _) (by omega)
  · have hlen : (flipBit f.bytes k).length ≤ n := by
      rw [flipBit_length]
      exact hge
    rw [List.take_of_length_le hlen]
    exact feed_flipped h f k hi hf hk

/-- Witness of C2: bit 12 (in the selector byte) of the sample frame. -/
theorem C2_checksum_rejection_witness :
    Idle sampleHandle ∧ sampleFrame.wf ∧ 12 < 88 ∧
      ∀ n, n ≤ 11 →
        (feed sampleHandle ((flipBit sampleFrame.bytes 12).take n)).sensor_data =
          sampleHandle.sensor_data :=
  ⟨by decide, by decide, by decide,
    C2_checksum_rejection sampleHandle sampleFrame 12 (by decide) (by decide) (by decide)⟩

/-- C3 as stated fails twice.  After the junk `55 00 51` the parser is
collecting an acceleration frame, and the well-formed angular-rate frame that
follows is consumed as its payload and never decoded.  And with no junk at
all, the acceleration frame with raw X = -32768 stores -5141509/32768, not the
documented -156.9064. -/
theorem C3_counterexample :
    (Idle sampleHandle ∧ zeroGyroFrame.wf ∧
      List.Chain' (fun a b => ¬ headerThenSelector a b) [0x55, 0x00, 0x51] ∧
      reading (feed sampleHandle ([0x55, 0x00, 0x51] ++ zeroGyroFrame.bytes)).sensor_data
          zeroGyroFrame.sel ≠ zeroGyroFrame.documented) ∧
    (fullScaleAccFrame.wf ∧ List.Chain' (fun a b => ¬ headerThenSelector a b) [] ∧
      reading (feed sampleHandle ([] ++ fullScaleAccFrame.bytes)).sensor_data
          fullScaleAccFrame.sel ≠ fullScaleAccFrame.documented) := by
  refine ⟨⟨by decide, by decide, by simp [headerThenSelector, isSelector], ?_⟩,
    by decide, by simp, ?_⟩
  · have hl : reading (feed sampleHandle ([0x55, 0x00, 0x51] ++ zeroGyroFrame.bytes)).sensor_data
        zeroGyroFrame.sel = (2, 2, 2) := by rfl
    have hr : zeroGyroFrame.documented = (0, 0, 0) := by
      simp [Frame.documented, zeroGyroFrame, docGyro, le16]
    rw [hl, hr]
    simp
  · rw [List.nil_append, frame_reading sampleHandle (by decide) fullScaleAccFrame (by decide)]
    exact fullScale_ne

/-- C3 (embedded header recovery, amended): after any junk in which no `0x55`
byte is immediately followed by a selector byte and which does not leave the
parser in the middle of a frame (frame state 0 once the junk is fed), a
well-formed frame fed from an Idle parser is decoded on its last byte: the
reading of its category is the decoded value of its payload, which is the
documented conversion exactly for angular rate and orientation and within 1e-7
relative of it for acceleration. -/
theorem C3_embedded_header_recovery (h : JY901S_Handle) (junk : List Nat) (f : Frame)
    (hi : Idle h) (hf : f.wf)
    (_hj : List.Chain' (fun a b => ¬ headerThenSelector a b) junk)
    (hfs : (feed h junk).parser.frame_state = 0) :
    reading (feed h (junk ++ f.bytes)).sensor_data f.sel = f.decoded ∧
      (f.sel ≠ 0x51 → reading (feed h (junk ++ f.bytes)).sensor_data f.sel = f.documented) ∧
      closeTo (reading (feed h (junk ++ f.bytes)).sensor_data f.sel) f.documented := by
  have hr := frame_after_junk h hi junk f hf hfs
  refine ⟨hr, ?_, ?_⟩
  · intro hs
    rw [hr, decoded_exact f hs]
  · rw [hr]
    exact decoded_close f

/-- Witness of the amended C3: the junk `55 00 51` and nine `00` bytes, a
bogus frame dropped on its checksum, before the sample frame. -/
theorem C3_embedded_header_recovery_witness :
    Idle sampleHandle ∧ sampleFrame.wf ∧
      List.Chain' (fun a b => ¬ headerThenSelector a b)
        [0x55, 0x00, 0x51, 0, 0, 0, 0, 0, 0, 0, 0, 0] ∧
      (feed sampleHandle [0x55, 0x00, 0x51, 0, 0, 0, 0, 0, 0, 0, 0, 0]).parser.frame_state = 0 ∧
      reading (feed sampleHandle
          ([0x55, 0x00, 0x51, 0, 0, 0, 0, 0, 0, 0, 0, 0] ++ sampleFrame.bytes)).sensor_data
          sampleFrame.sel = sampleFrame.documented :=
  ⟨by decide, by decide, by simp [headerThenSelector, isSelector], by decide,
    (C3_embedded_header_recovery sampleHandle [0x55, 0x00, 0x51, 0, 0, 0, 0, 0, 0, 0, 0, 0]
      sampleFrame (by decide) (by decide) (by simp [headerThenSelector, isSelector])
      (by decide)).2.1 (by decide)⟩

/-- C4 as stated fails for acceleration: after the one-frame stream made of
the acceleration frame with raw X = -32768, the last frame of category `0x51`
is that frame, and the stored acceleration is not its documented conversion
in exact arithmetic. -/
theorem C4_counterexample :
    Idle sampleHandle ∧ (∀ f ∈ [fullScaleAccFrame], f.wf) ∧
      lastOf 0x51 [fullScaleAccFrame] = some fullScaleAccFrame ∧
      reading (feed sampleHandle (stream [fullScaleAccFrame])).sensor_data 0x51
        ≠ fullScaleAccFrame.documented := by
  refine ⟨by decide, by decide, by decide, ?_⟩
  have hs : stream [fullScaleAccFrame] = fullScaleAccFrame.bytes := by decide
  rw [hs]
  have hr := frame_reading sampleHandle (by decide) fullScaleAccFrame (by decide)
  have hsel : fullScaleAccFrame.sel = 0x51 := rfl
  rw [hsel] at hr
  rw [hr]
  exact fullScale_ne

/-- C4 (most recent reading over a stream, amended): the concatenated bytes of
any list of well-formed frames, fed from an Idle parser, decode every frame in
order; each category ends with the decoded value of its last frame in the
list, or with its prior value when the list has none; the decoded value of a
frame is its documented conversion exactly for angular rate and orientation
and within 1e-7 relative of it for acceleration; and the parser is Idle
again. -/
theorem C4_most_recent_reading (h : JY901S_Handle) (fs : List Frame) (hi : Idle h)
    (hwf : ∀ f ∈ fs, f.wf) :
    (feed h (stream fs)).sensor_data = fs.foldl store h.sensor_data ∧
      (∀ c, isSelector c →
        reading (feed h (stream fs)).sensor_data c =
          match lastOf c fs with
          | some f => f.decoded
          | none => reading h.sensor_data c) ∧
      (∀ f ∈ fs, (f.sel ≠ 0x51 → f.decoded = f.documented) ∧ closeTo f.decoded f.documented) ∧
      Idle (feed h (stream fs)) := by
  obtain ⟨hd, hidle⟩ := feed_stream fs h hi hwf
  refine ⟨hd, ?_, fun f _ => ⟨decoded_exact f, decoded_close f⟩, hidle⟩
  intro c hc
  rw [hd]
  exact reading_foldl_store c hc h.sensor_data fs hwf

/-- Witness of C4: two angular-rate frames, the second one all zero. -/
theorem C4_most_recent_reading_witness :
    Idle sampleHandle ∧ (∀ f ∈ [sampleFrame, zeroGyroFrame], f.wf) ∧
      Idle (feed sampleHandle (stream [sampleFrame, zeroGyroFrame])) :=
  ⟨by decide, by decide,
    (C4_most_recent_reading sampleHandle [sampleFrame, zeroGyroFrame] (by decide)
      (by decide)).2.2.2⟩

/-- C5 (category isolation): a well-formed frame of one category, fed from an
Idle parser, leaves the stored readings of the two other categories equal to
their prior values. -/
theorem C5_category_isolation (h : JY901S_Handle) (f : Frame) (c : Nat) (hi : Idle h)
    (hf : f.wf) (hc : isSelector c) (hne : c ≠ f.sel) :
    reading (feed h f.bytes).sensor_data c = reading h.sensor_data c := by
  rw [feed_frame_data h hi f hf]
  exact reading_store_other _ f c hc hne hf

/-- Witness of C5: an angular-rate frame keeps the acceleration reading. -/
theorem C5_category_isolation_witness :
    Idle sampleHandle ∧ sampleFrame.wf ∧ isSelector 0x51 ∧ 0x51 ≠ sampleFrame.sel ∧
      reading (feed sampleHandle sampleFrame.bytes).sensor_data 0x51 =
        reading sampleHandle.sensor_data 0x51 :=
  ⟨by decide, by decide, by decide, by decide,
    C5_category_isolation sampleHandle sampleFrame 0x51 (by decide) (by decide) (by decide)
      (by decide)⟩

/-- C6 (garbage without a header): a byte sequence of any length without a
`0x55` byte, fed from an Idle parser, leaves the whole handle unchanged after
every byte: phase, byte count, checksum, buffers and the three readings. -/
theorem C6_garbage_without_header (h : JY901S_Handle) (bytes : List Nat) (hi : Idle h)
    (hno : 0x55 ∉ bytes) :
    feed h bytes = h ∧ ∀ n, feed h (bytes.take n) = h := by
  refine ⟨feed_no_header bytes h hi hno, ?_⟩
  intro n
  exact feed_no_header _ h hi (fun hm => hno (List.mem_of_mem_take hm))

/-- Witness of C6: four bytes, selectors among them, none a header. -/
theorem C6_garbage_without_header_witness :
    Idle sampleHandle ∧ 0x55 ∉ [0x51, 0x00, 0xFF, 0x53] ∧
      feed sampleHandle [0x51, 0x00, 0xFF, 0x53] = sampleHandle :=
  ⟨by decide, by decide,
    (C6_garbage_without_header sampleHandle [0x51, 0x00, 0xFF, 0x53] (by decide)
      (by decide)).1⟩

/-- C7 (orientation ranges): whatever the 8 bytes of the orientation buffer,
the values stored by `parse_angle` satisfy -180 ≤ roll < 180,
-180 ≤ pitch < 180 and 0 ≤ yaw < 360, the yaw being raw*180/32768 when that is
non-negative and raw*180/32768 + 360 otherwise. -/
theorem C7_orientation_ranges (h : JY901S_Handle) :
    (-180 ≤ (parse_angle h).sensor_data.angle.1 ∧ (parse_angle h).sensor_data.angle.1 < 180) ∧
      (-180 ≤ (parse_angle h).sensor_data.angle.2.1 ∧
        (parse_angle h).sensor_data.angle.2.1 < 180) ∧
      (0 ≤ (parse_angle h).sensor_data.angle.2.2 ∧
        (parse_angle h).sensor_data.angle.2.2 < 360) ∧
      (parse_angle h).sensor_data.angle.2.2 =
        if 0 ≤ (raw16 (h.parser.angle_buffer 5) (h.parser.angle_buffer 4) : ℚ) * 180 / 32768
        then (raw16 (h.parser.angle_buffer 5) (h.parser.angle_buffer 4) : ℚ) * 180 / 32768
        else (raw16 (h.parser.angle_buffer 5) (h.parser.angle_buffer 4) : ℚ) * 180 / 32768
          + 360 := by
  obtain ⟨r1, r2⟩ := raw16_bounds_rat (h.parser.angle_buffer 1) (h.parser.angle_buffer 0)
  obtain ⟨p1, p2⟩ := raw16_bounds_rat (h.parser.angle_buffer 3) (h.parser.angle_buffer 2)
  obtain ⟨y1, y2⟩ := raw16_bounds_rat (h.parser.angle_buffer 5) (h.parser.angle_buffer 4)
  simp only [parse_angle]
  refine ⟨⟨by linarith, by linarith⟩, ⟨by linarith, by linarith⟩, ?_, ?_⟩
  · split_ifs with hneg
    · constructor <;> linarith
    · constructor <;> linarith
  · split_ifs with hneg hpos hpos
    · exfalso; linarith
    · ring
    · ring
    · exfalso; linarith

/-- C8 (yaw wrap, concrete cases): with bytes 4,5 of the orientation buffer
`FF FF` (raw yaw -1) the stored yaw is 360 - 180/32768, not a negative number;
with `00 00` it is 0; with bytes 0,1 equal to `00 C0` (raw roll -16384) the
stored roll is exactly -90, and likewise the pitch for bytes 2,3. -/
theorem C8_yaw_wrap_cases (d : JY901S_Data) (p : JY901S_Parser)
    (b0 b1 b2 b3 b4 b5 b6 b7 : Nat) :
    (parse_angle ⟨d, { p with angle_buffer := mk8 b0 b1 b2 b3 0xFF 0xFF b6 b7 }⟩
        ).sensor_data.angle.2.2 = 360 - 180 / 32768 ∧
      0 ≤ (parse_angle ⟨d, { p with angle_buffer := mk8 b0 b1 b2 b3 0xFF 0xFF b6 b7 }⟩
        ).sensor_data.angle.2.2 ∧
      (parse_angle ⟨d, { p with angle_buffer := mk8 b0 b1 b2 b3 0x00 0x00 b6 b7 }⟩
        ).sensor_data.angle.2.2 = 0 ∧
      (parse_angle ⟨d, { p with angle_buffer := mk8 0x00 0xC0 b2 b3 b4 b5 b6 b7 }⟩
        ).sensor_data.angle.1 = -90 ∧
      (parse_angle ⟨d, { p with angle_buffer := mk8 b0 b1 0x00 0xC0 b4 b5 b6 b7 }⟩
        ).sensor_data.angle.2.1 = -90 := by
  have e1 : raw16 0xFF 0xFF = -1 := by decide
  have e2 : raw16 0x00 0x00 = 0 := by decide
  have e3 : raw16 0xC0 0x00 = -16384 := by decide
  simp only [parse_angle, mk8_0, mk8_1, mk8_2, mk8_3, mk8_4, mk8_5, e1, e2, e3]
  norm_num

/-- C9 as stated fails: the running checksum before the 11th byte of
`55 51 00 00 00 00 00 00 00 00 55` is `A6`, so the 11th byte `55` does not
match and a stored acceleration of (1, 1, 1) is still (1, 1, 1), not
(0, 0, 0). -/
theorem C9_counterexample :
    Idle sampleHandle ∧
      (feed sampleHandle [0x55, 0x51, 0, 0, 0, 0, 0, 0, 0, 0]).parser.check_sum = 0xA6 ∧
      (feed sampleHandle [0x55, 0x51, 0, 0, 0, 0, 0, 0, 0, 0, 0x55]).sensor_data.acc
        ≠ (0, 0, 0) := by
  refine ⟨by decide, by decide, ?_⟩
  have hl : (feed sampleHandle [0x55, 0x51, 0, 0, 0, 0, 0, 0, 0, 0, 0x55]).sensor_data.acc
      = (1, 1, 1) := by rfl
  rw [hl]
  simp

/-- C9 (concrete end-to-end example, amended): from an Idle parser the 10
bytes `55 51 00 00 00 00 00 00 00 00` leave the running checksum at `A6`;
with `55` as 11th byte the frame is rejected and all readings are unchanged;
with `A6` as 11th byte the frame is accepted as an acceleration frame and the
stored acceleration becomes (0, 0, 0) whatever it was before, the two other
readings being kept. -/
theorem C9_concrete_example (h : JY901S_Handle) (hi : Idle h) :
    (feed h [0x55, 0x51, 0, 0, 0, 0, 0, 0, 0, 0]).parser.check_sum = 0xA6 ∧
      (feed h [0x55, 0x51, 0, 0, 0, 0, 0, 0, 0, 0, 0x55]).sensor_data = h.sensor_data ∧
      (feed h [0x55, 0x51, 0, 0, 0, 0, 0, 0, 0, 0, 0xA6]).sensor_data =
        { h.sensor_data with acc := (0, 0, 0) } := by
  have hsel : isSelector 0x51 := by decide
  refine ⟨?_, ?_, ?_⟩
  · rw [feed_collect h hi 0x51 0 0 0 0 0 0 0 0 hsel]
    rfl
  · rw [feed_bad_frame h hi 0x51 0 0 0 0 0 0 0 0 0x55 hsel (by decide)]
    rfl
  · have hf : (Frame.mk 0x51 0 0 0 0 0 0 0 0).wf := by decide
    have hd := feed_frame_data h hi (Frame.mk 0x51 0 0 0 0 0 0 0 0) hf
    have hb : (Frame.mk 0x51 0 0 0 0 0 0 0 0).bytes =
        [0x55, 0x51, 0, 0, 0, 0, 0, 0, 0, 0, 0xA6] := by decide
    rw [hb] at hd
    rw [hd]
    have e0 : le16 0 0 = 0 := by decide
    simp [store, Frame.decoded, e0, f32Acc_zero]

/-- Witness of the amended C9 at the sample handle. -/
theorem C9_concrete_example_witness :
    Idle sampleHandle ∧
      (feed sampleHandle [0x55, 0x51, 0, 0, 0, 0, 0, 0, 0, 0, 0xA6]).sensor_data =
        { sampleHandle.sensor_data with acc := (0, 0, 0) } :=
  ⟨by decide, (C9_concrete_example sampleHandle (by decide)).2.2⟩

/-- C10 (zero until received): after `JY901S_Init`, for every category and
every byte sequence without that category's selector byte, the stored reading
of the category is still the zero vector once the sequence has been fed. -/
theorem C10_zero_until_received (g : JY901S_Handle) (c : Nat) (bytes : List Nat)
    (hc : isSelector c) (hno : c ∉ bytes) :
    reading (feed (JY901S_Init g) bytes).sensor_data c = (0, 0, 0) := by
  have hne : (JY901S_Init g).parser.frame_state ≠ c - 0x50 := by
    show 0 ≠ c - 0x50
    unfold isSelector at hc
    omega
  rw [feed_keeps c hc bytes _ hno hne]
  rcases hc with rfl | rfl | rfl <;> rfl

/-- Witness of C10: a complete acceleration frame leaves the angular rate at
zero. -/
theorem C10_zero_until_received_witness :
    isSelector 0x52 ∧ 0x52 ∉ [0x55, 0x51, 0, 0, 0, 0, 0, 0, 0, 0, 0xA6] ∧
      reading (feed (JY901S_Init sampleHandle)
        [0x55, 0x51, 0, 0, 0, 0, 0, 0, 0, 0, 0xA6]).sensor_data 0x52 = (0, 0, 0) :=
  ⟨by decide, by decide,
    C10_zero_until_received sampleHandle 0x52 [0x55, 0x51, 0, 0, 0, 0, 0, 0, 0, 0, 0xA6]
      (by decide) (by decide)⟩

/-- C11 as stated fails outside the reachable states: with frame state 1 and
byte count 11 a byte equal to the checksum is still decoded, here turning the
acceleration (1, 1, 1) into (0, 0, 0) although the count is not 10. -/
theorem C11_counterexample :
    (parse_byte overrunHandle 0).sensor_data.acc ≠ overrunHandle.sensor_data.acc ∧
      overrunHandle.parser.byte_count ≠ 10 ∧ overrunHandle.parser.byte_count < 256 := by
  refine ⟨?_, by decide, by decide⟩
  have hl : (parse_byte overrunHandle 0).sensor_data.acc = (0, 0, 0) := by
    have e : raw16 0 0 = 0 := by decide
    simp [parse_byte, parse_switch, validate_checksum, update_sensor_data, parse_acceleration,
      JY901S_ResetParser, overrunHandle, e, f32div_zero, f32mul_zero]
  rw [hl]
  simp [overrunHandle]

/-- C11 (overwrite only on a validated frame, amended): for every handle and
byte, a step of `parse_byte` that changes the reading of a category starts in
the collecting state of that category (frame state 1, 2 or 3) with a byte
count of at least 10 and a byte equal to the low 8 bits of the running
checksum; in every other situation all three readings are unchanged; and in a
state reached from a reset parser the count is then exactly 10 and the byte
equals the checksum. -/
theorem C11_overwrite_only_on_validated (h : JY901S_Handle) (b : Nat) :
    ((parse_byte h b).sensor_data.acc ≠ h.sensor_data.acc →
        h.parser.frame_state = 1 ∧ 10 ≤ h.parser.byte_count ∧ h.parser.check_sum % 256 = b) ∧
      ((parse_byte h b).sensor_data.gyro ≠ h.sensor_data.gyro →
        h.parser.frame_state = 2 ∧ 10 ≤ h.parser.byte_count ∧ h.parser.check_sum % 256 = b) ∧
      ((parse_byte h b).sensor_data.angle ≠ h.sensor_data.angle →
        h.parser.frame_state = 3 ∧ 10 ≤ h.parser.byte_count ∧ h.parser.check_sum % 256 = b) ∧
      (¬ (Collecting h ∧ 10 ≤ h.parser.byte_count ∧ h.parser.check_sum % 256 = b) →
        (parse_byte h b).sensor_data = h.sensor_data) ∧
      (∀ (g : JY901S_Handle) (bytes : List Nat), h = feed (JY901S_ResetParser g) bytes →
        (parse_byte h b).sensor_data ≠ h.sensor_data →
          h.parser.byte_count = 10 ∧ h.parser.check_sum = b) := by
  have hcases := parse_switch_data_cases h b
  rw [← parse_byte_data] at hcases
  refine ⟨?_, ?_, ?_, ?_, ?_⟩
  · intro hne
    rcases hcases with e | ⟨-, hbc, hcs, e⟩
    · exact absurd (by rw [e]) hne
    · rcases update_acc_cases h with e2 | e2
      · exact absurd (by rw [e, e2]) hne
      · exact ⟨e2, hbc, hcs⟩
  · intro hne
    rcases hcases with e | ⟨-, hbc, hcs, e⟩
    · exact absurd (by rw [e]) hne
    · rcases update_gyro_cases h with e2 | e2
      · exact absurd (by rw [e, e2]) hne
      · exact ⟨e2, hbc, hcs⟩
  · intro hne
    rcases hcases with e | ⟨-, hbc, hcs, e⟩
    · exact absurd (by rw [e]) hne
    · rcases update_angle_cases h with e2 | e2
      · exact absurd (by rw [e, e2]) hne
      · exact ⟨e2, hbc, hcs⟩
  · intro hnot
    rcases hcases with e | ⟨hc, hbc, hcs, -⟩
    · exact e
    · exact absurd ⟨hc, hbc, hcs⟩ hnot
  · intro g bytes hreach hne
    obtain ⟨hinv, hlt⟩ := parserInv_feed bytes _ (parserInv_reset g)
    rw [← hreach] at hinv hlt
    rcases hcases with e | ⟨-, hbc, hcs, -⟩
    · exact absurd e hne
    · unfold ParserInv at hinv
      constructor
      · omega
      · omega

/-- Witness of the amended C11: the byte `A6` completing an all-zero
acceleration frame changes the acceleration of the sample handle, from byte
count 10. -/
theorem C11_overwrite_only_on_validated_witness :
    (parse_byte (feed sampleHandle [0x55, 0x51, 0, 0, 0, 0, 0, 0, 0, 0]) 0xA6).sensor_data
        ≠ (feed sampleHandle [0x55, 0x51, 0, 0, 0, 0, 0, 0, 0, 0]).sensor_data ∧
      (feed sampleHandle [0x55, 0x51, 0, 0, 0, 0, 0, 0, 0, 0]).parser.byte_count = 10 ∧
      (feed sampleHandle [0x55, 0x51, 0, 0, 0, 0, 0, 0, 0, 0]).parser.check_sum = 0xA6 := by
  have hne : (parse_byte (feed sampleHandle [0x55, 0x51, 0, 0, 0, 0, 0, 0, 0, 0]) 0xA6).sensor_data
      ≠ (feed sampleHandle [0x55, 0x51, 0, 0, 0, 0, 0, 0, 0, 0]).sensor_data := by
    intro e
    have e1 : (parse_byte (feed sampleHandle [0x55, 0x51, 0, 0, 0, 0, 0, 0, 0, 0]) 0xA6).sensor_data.acc
        = (0, 0, 0) := by
      have e0 : raw16 0 0 = 0 := by decide
      have hst : feed sampleHandle [0x55, 0x51, 0, 0, 0, 0, 0, 0, 0, 0] =
          collected sampleHandle 0x51 0 0 0 0 0 0 0 0 :=
        feed_collect sampleHandle (by decide) 0x51 0 0 0 0 0 0 0 0 (by decide)
      rw [hst, parse_byte_collected _ _ _ _ _ _ _ _ _ _ _ (by decide)]
      simp [JY901S_ResetParser, update_sensor_data, collected, parse_acceleration, mk8_0, mk8_1,
        mk8_2, mk8_3, mk8_4, mk8_5, e0, f32div_zero, f32mul_zero]
    have e2 : (feed sampleHandle [0x55, 0x51, 0, 0, 0, 0, 0, 0, 0, 0]).sensor_data.acc
        = (1, 1, 1) := rfl
    rw [e, e2] at e1
    simp at e1
  exact ⟨hne,
    (C11_overwrite_only_on_validated (feed sampleHandle [0x55, 0x51, 0, 0, 0, 0, 0, 0, 0, 0])
      0xA6).2.2.2.2 sampleHandle [0x55, 0x51, 0, 0, 0, 0, 0, 0, 0, 0] rfl hne⟩

/-- C12 (reset): `JY901S_ResetParser` yields frame state 0, byte count 0 and
checksum 0 from every handle, and leaves the three readings (and the staging
buffers) unchanged. -/
theorem C12_reset (h : JY901S_Handle) :
    (JY901S_ResetParser h).parser.frame_state = 0 ∧
      (JY901S_ResetParser h).parser.byte_count = 0 ∧
      (JY901S_ResetParser h).parser.check_sum = 0 ∧
      (JY901S_ResetParser h).sensor_data = h.sensor_data ∧
      (JY901S_ResetParser h).parser.acc_buffer = h.parser.acc_buffer ∧
      (JY901S_ResetParser h).parser.gyro_buffer = h.parser.gyro_buffer ∧
      (JY901S_ResetParser h).parser.angle_buffer = h.parser.angle_buffer :=
  ⟨rfl, rfl, rfl, rfl, rfl, rfl, rfl⟩

/-- C13 as stated fails: in Syncing the byte `00` leaves the byte count at 1,
and the selector `51` fed next is not ignored but starts the collection of an
acceleration frame. -/
theorem C13_counterexample :
    syncingHandle.parser.frame_state = 0 ∧ syncingHandle.parser.byte_count = 1 ∧
      ¬ isSelector 0x00 ∧ 0x00 ≠ 0x55 ∧
      (parse_byte syncingHandle 0x00).parser.byte_count = 1 ∧
      (feed syncingHandle [0x00, 0x51]).parser.frame_state = 1 ∧
      (feed syncingHandle [0x00, 0x51]).parser.byte_count = 2 := by
  decide

/-- C13 (Syncing, amended): in Syncing (frame state 0, byte count 1) a byte
that is neither a selector nor `0x55` leaves the whole handle unchanged, so
the parser stays in Syncing with byte count 1, and a selector byte arriving
afterwards starts the collection of its category with byte count 2. -/
theorem C13_syncing_stays_armed (h : JY901S_Handle) (b c : Nat)
    (h1 : h.parser.frame_state = 0) (h2 : h.parser.byte_count = 1) (hb : ¬ isSelector b)
    (_hb55 : b ≠ 0x55) (hc : isSelector c) :
    parse_byte h b = h ∧
      (feed h [b, c]).parser.frame_state = c - 0x50 ∧
      (feed h [b, c]).parser.byte_count = 2 ∧
      (feed h [b, c]).parser.check_sum = (h.parser.check_sum + c) % 256 := by
  have e := parse_byte_armed_other h h1 h2 b hb
  refine ⟨e, ?_⟩
  rw [feed_cons, feed_cons, feed_nil, e]
  exact parse_byte_armed_selector h h1 h2 c hc

/-- Witness of the amended C13 at the Syncing sample handle. -/
theorem C13_syncing_stays_armed_witness :
    syncingHandle.parser.frame_state = 0 ∧ syncingHandle.parser.byte_count = 1 ∧
      ¬ isSelector 0x00 ∧ 0x00 ≠ 0x55 ∧ isSelector 0x53 ∧
      parse_byte syncingHandle 0x00 = syncingHandle :=
  ⟨by decide, by decide, by decide, by decide, by decide,
    (C13_syncing_stays_armed syncingHandle 0x00 0x53 (by decide) (by decide) (by decide)
      (by decide) (by decide)).1⟩

/-- C14 (repeated header): in Syncing (frame state 0, byte count 1, checksum
`0x55`) the byte `0x55` leaves the handle unchanged, so the parser is still in
Syncing with byte count 1 and checksum `0x55`, and a selector fed next starts
payload collection with checksum `0x55 + selector`. -/
theorem C14_rearm_on_repeated_header (h : JY901S_Handle) (c : Nat) (hs : Syncing h)
    (hc : isSelector c) :
    parse_byte h 0x55 = h ∧ Syncing (parse_byte h 0x55) ∧
      (feed h [0x55, c]).parser.frame_state = c - 0x50 ∧
      (feed h [0x55, c]).parser.byte_count = 2 ∧
      (feed h [0x55, c]).parser.check_sum = 0x55 + c := by
  have h55 : ¬ isSelector 0x55 := by decide
  have e := parse_byte_syncing_other h hs 0x55 h55
  refine ⟨e, by rw [e]; exact hs, ?_⟩
  rw [feed_cons, feed_cons, feed_nil, e]
  obtain ⟨r1, r2, r3⟩ := parse_byte_armed_selector h hs.1 hs.2.1 c hc
  refine ⟨r1, r2, ?_⟩
  rw [r3, hs.2.2]
  unfold isSelector at hc
  omega

/-- Witness of C14 at the Syncing sample handle. -/
theorem C14_rearm_on_repeated_header_witness :
    Syncing syncingHandle ∧ isSelector 0x52 ∧
      (feed syncingHandle [0x55, 0x52]).parser.check_sum = 0x55 + 0x52 :=
  ⟨⟨rfl, rfl, rfl⟩, by decide,
    (C14_rearm_on_repeated_header syncingHandle 0x52 ⟨rfl, rfl, rfl⟩ (by decide)).2.2.2.2⟩

/-- C15 as stated fails for acceleration: after an all-zero acceleration
frame closed by the wrong byte `55`, the well-formed acceleration frame with
raw X = -32768 is decoded to -5141509/32768, not to the documented -156.9064
of exact arithmetic. -/
theorem C15_counterexample :
    Idle sampleHandle ∧ isSelector 0x51 ∧
      0x55 ≠ (0x55 + 0x51 + 0 + 0 + 0 + 0 + 0 + 0 + 0 + 0) % 256 ∧ fullScaleAccFrame.wf ∧
      reading (feed sampleHandle
          ([0x55, 0x51, 0, 0, 0, 0, 0, 0, 0, 0, 0x55] ++ fullScaleAccFrame.bytes)).sensor_data
        fullScaleAccFrame.sel ≠ fullScaleAccFrame.documented := by
  refine ⟨by decide, by decide, by decide, by decide, ?_⟩
  have hidle : Idle (feed sampleHandle [0x55, 0x51, 0, 0, 0, 0, 0, 0, 0, 0, 0x55]) := by decide
  rw [feed_append, frame_reading _ hidle fullScaleAccFrame (by decide)]
  exact fullScale_ne

/-- C15 (recovery after a bad checksum, amended): from an Idle parser, header,
selector, 8 payload bytes and an 11th byte different from the checksum leave
the three readings unchanged and the parser in Idle with byte count 0 and
checksum 0, and a well-formed frame fed immediately afterwards is decoded: the
reading of its category is the decoded value of its payload, which is the
documented conversion exactly for angular rate and orientation and within 1e-7
relative of it for acceleration. -/
theorem C15_recovery_after_bad_checksum (h : JY901S_Handle)
    (c q0 q1 q2 q3 q4 q5 q6 q7 x : Nat) (f : Frame) (hi : Idle h) (hc : isSelector c)
    (hx : x ≠ (0x55 + c + q0 + q1 + q2 + q3 + q4 + q5 + q6 + q7) % 256) (hf : f.wf) :
    (feed h [0x55, c, q0, q1, q2, q3, q4, q5, q6, q7, x]).sensor_data = h.sensor_data ∧
      (feed h [0x55, c, q0, q1, q2, q3, q4, q5, q6, q7, x]).parser.frame_state = 0 ∧
      (feed h [0x55, c, q0, q1, q2, q3, q4, q5, q6, q7, x]).parser.byte_count = 0 ∧
      (feed h [0x55, c, q0, q1, q2, q3, q4, q5, q6, q7, x]).parser.check_sum = 0 ∧
      reading (feed h ([0x55, c, q0, q1, q2, q3, q4, q5, q6, q7, x] ++ f.bytes)).sensor_data
        f.sel = f.decoded ∧
      (f.sel ≠ 0x51 →
        reading (feed h ([0x55, c, q0, q1, q2, q3, q4, q5, q6, q7, x] ++ f.bytes)).sensor_data
          f.sel = f.documented) ∧
      closeTo
        (reading (feed h ([0x55, c, q0, q1, q2, q3, q4, q5, q6, q7, x] ++ f.bytes)).sensor_data
          f.sel) f.documented := by
  have e := feed_bad_frame h hi c q0 q1 q2 q3 q4 q5 q6 q7 x hc (fun e => hx e.symm)
  have hidle : Idle (feed h [0x55, c, q0, q1, q2, q3, q4, q5, q6, q7, x]) := by
    rw [e]; exact ⟨rfl, rfl⟩
  have hdata : (feed h [0x55, c, q0, q1, q2, q3, q4, q5, q6, q7, x]).sensor_data =
      h.sensor_data := by rw [e]; rfl
  have hr : reading (feed h ([0x55, c, q0, q1, q2, q3, q4, q5, q6, q7, x] ++ f.bytes)).sensor_data
      f.sel = f.decoded := by
    rw [feed_append]
    exact frame_reading _ hidle f hf
  refine ⟨hdata, hidle.1, hidle.2, by rw [e]; rfl, hr, ?_, ?_⟩
  · intro hs
    rw [hr, decoded_exact f hs]
  · rw [hr]
    exact decoded_close f

/-- Witness of C15: an all-zero acceleration frame closed by `55`, then the
sample frame. -/
theorem C15_recovery_after_bad_checksum_witness :
    Idle sampleHandle ∧ isSelector 0x51 ∧
      0x55 ≠ (0x55 + 0x51 + 0 + 0 + 0 + 0 + 0 + 0 + 0 + 0) % 256 ∧ sampleFrame.wf ∧
      (feed sampleHandle [0x55, 0x51, 0, 0, 0, 0, 0, 0, 0, 0, 0x55]).sensor_data =
        sampleHandle.sensor_data :=
  ⟨by decide, by decide, by decide, by decide,
    (C15_recovery_after_bad_checksum sampleHandle 0x51 0 0 0 0 0 0 0 0 0x55 sampleFrame
      (by decide) (by decide) (by decide) (by decide)).1⟩

/-- C16 (parser-state invariant): in every state reached from a reset parser by
feeding any byte sequence, the frame state is 0, 1, 2 or 3; frame state 0 goes
with byte count 0 or 1; frame state 1, 2 or 3 goes with a byte count from 2 to
10; and the byte count never exceeds 10. -/
theorem C16_parser_state_invariant (g : JY901S_Handle) (bytes : List Nat) :
    ((feed (JY901S_ResetParser g) bytes).parser.frame_state = 0 ∨
        Collecting (feed (JY901S_ResetParser g) bytes)) ∧
      ((feed (JY901S_ResetParser g) bytes).parser.frame_state = 0 →
        (feed (JY901S_ResetParser g) bytes).parser.byte_count = 0 ∨
          (feed (JY901S_ResetParser g) bytes).parser.byte_count = 1) ∧
      (Collecting (feed (JY901S_ResetParser g) bytes) →
        2 ≤ (feed (JY901S_ResetParser g) bytes).parser.byte_count ∧
          (feed (JY901S_ResetParser g) bytes).parser.byte_count ≤ 10) ∧
      (feed (JY901S_ResetParser g) bytes).parser.byte_count ≤ 10 := by
  obtain ⟨hinv, -⟩ := parserInv_feed bytes _ (parserInv_reset g)
  unfold ParserInv at hinv
  unfold Collecting
  refine ⟨?_, ?_, ?_, ?_⟩
  · rcases hinv with ⟨h0, -⟩ | ⟨h123, -, -⟩
    · exact Or.inl h0
    · exact Or.inr h123
  · intro h0; omega
  · intro hc; omega
  · omega

/-- Witness of C16: after header, selector and one payload byte the parser is
collecting with byte count 3. -/
theorem C16_parser_state_invariant_witness :
    Collecting (feed (JY901S_ResetParser sampleHandle) [0x55, 0x53, 0x07]) ∧
      2 ≤ (feed (JY901S_ResetParser sampleHandle) [0x55, 0x53, 0x07]).parser.byte_count ∧
      (feed (JY901S_ResetParser sampleHandle) [0x55, 0x53, 0x07]).parser.byte_count ≤ 10 :=
  ⟨by decide,
    (C16_parser_state_invariant sampleHandle [0x55, 0x53, 0x07]).2.2.1 (by decide)⟩

/-- C17 (buffer-index guard unreachable): in every state reached from a reset
parser, whenever `parse_byte` calls `store_data` (collecting state, byte count
below 10) the index `byte_count - 2` is below 8, so the early return does not
fire and the byte is written at that index of the selected buffer; and the
frame state is 0, 1, 2 or 3, so the default branch is never taken. -/
theorem C17_index_guard_unreachable (g : JY901S_Handle) (bytes : List Nat) (b : Nat) :
    (Collecting (feed (JY901S_ResetParser g) bytes) →
        (feed (JY901S_ResetParser g) bytes).parser.byte_count < 10 →
        (2 ≤ (feed (JY901S_ResetParser g) bytes).parser.byte_count ∧
          ((feed (JY901S_ResetParser g) bytes).parser.byte_count + 256 - 2) % 256 < 8 ∧
          ∀ i : Fin 8, i.val + 2 = (feed (JY901S_ResetParser g) bytes).parser.byte_count →
            activeBuffer (store_data (feed (JY901S_ResetParser g) bytes) b) i = b)) ∧
      ((feed (JY901S_ResetParser g) bytes).parser.frame_state = 0 ∨
        Collecting (feed (JY901S_ResetParser g) bytes)) := by
  obtain ⟨hinv, -⟩ := parserInv_feed bytes _ (parserInv_reset g)
  constructor
  · intro hc hlt
    have hlo : 2 ≤ (feed (JY901S_ResetParser g) bytes).parser.byte_count := by
      unfold ParserInv at hinv
      unfold Collecting at hc
      omega
    refine ⟨hlo, by omega, ?_⟩
    intro i hi
    exact store_data_writes _ b hc hlo hlt i hi
  · unfold ParserInv at hinv
    unfold Collecting
    rcases hinv with ⟨h0, -⟩ | ⟨h123, -, -⟩
    · exact Or.inl h0
    · exact Or.inr h123

/-- Witness of C17: the second payload byte of an orientation frame goes to
index 1. -/
theorem C17_index_guard_unreachable_witness :
    Collecting (feed (JY901S_ResetParser sampleHandle) [0x55, 0x53, 0x07]) ∧
      (feed (JY901S_ResetParser sampleHandle) [0x55, 0x53, 0x07]).parser.byte_count < 10 ∧
      ((feed (JY901S_ResetParser sampleHandle) [0x55, 0x53, 0x07]).parser.byte_count
        + 256 - 2) % 256 < 8 :=
  ⟨by decide, by decide,
    ((C17_index_guard_unreachable sampleHandle [0x55, 0x53, 0x07] 0x08).1 (by decide)
      (by decide)).2.1⟩

/-- C18 as stated fails: collecting an acceleration frame with byte count 0,
the index is 254 and the byte `00` is not stored, yet the parser is not reset:
the frame state is still 1 and the byte count is 1. -/
theorem C18_counterexample :
    Collecting strayHandle ∧ strayHandle.parser.byte_count < 10 ∧
      (strayHandle.parser.byte_count + 256 - 2) % 256 ≥ 8 ∧
      (parse_byte strayHandle 0x00).parser.frame_state = 1 ∧
      (parse_byte strayHandle 0x00).parser.byte_count = 1 := by
  decide

/-- C18 (defensive rule, amended): in a collecting state whose index
`byte_count - 2`, as an 8-bit value, is 8 or more while the byte count is below
10, a step of `parse_byte` writes none of the staging buffers and leaves the
readings unchanged, but does not reset the parser: the byte is added to the
checksum and the byte count is incremented with the frame state kept, or,
when the count was 0 and the byte is a selector, collection restarts in the
state of that selector with byte count 2. -/
theorem C18_defensive_rule (h : JY901S_Handle) (b : Nat) (hc : Collecting h)
    (hlt : h.parser.byte_count < 10) (hidx : (h.parser.byte_count + 256 - 2) % 256 ≥ 8) :
    (parse_byte h b).parser.acc_buffer = h.parser.acc_buffer ∧
      (parse_byte h b).parser.gyro_buffer = h.parser.gyro_buffer ∧
      (parse_byte h b).parser.angle_buffer = h.parser.angle_buffer ∧
      (parse_byte h b).sensor_data = h.sensor_data ∧
      (((parse_byte h b).parser.frame_state = h.parser.frame_state ∧
          (parse_byte h b).parser.byte_count = h.parser.byte_count + 1 ∧
          (parse_byte h b).parser.check_sum = (h.parser.check_sum + b) % 256) ∨
        (h.parser.byte_count = 0 ∧ isSelector b ∧
          (parse_byte h b).parser.frame_state = b - 0x50 ∧
          (parse_byte h b).parser.byte_count = 2 ∧
          (parse_byte h b).parser.check_sum = ((h.parser.check_sum + b) % 256 + b) % 256)) := by
  have hst : store_data h b = h := by
    unfold store_data
    simp only [if_pos hidx]
  have hn0 : h.parser.frame_state ≠ 0 := by unfold Collecting at hc; omega
  have hsw : parse_switch h b =
      { h with parser := { h.parser with
          check_sum := (h.parser.check_sum + b) % 256,
          byte_count := (h.parser.byte_count + 1) % 256 } } := by
    unfold parse_switch
    unfold Collecting at hc
    simp only [if_neg hn0, if_pos hc, if_pos hlt, hst]
  unfold parse_byte
  rw [hsw]
  simp only []
  split_ifs with hsel
  · obtain ⟨hb1, hlo, hhi⟩ := hsel
    refine ⟨rfl, rfl, rfl, rfl, Or.inr ⟨by omega, ?_, ?_, rfl, rfl⟩⟩
    · unfold isSelector; omega
    · show (b - 80) % 256 = b - 80
      omega
  · refine ⟨rfl, rfl, rfl, rfl, Or.inl ⟨rfl, ?_, rfl⟩⟩
    show (h.parser.byte_count + 1) % 256 = h.parser.byte_count + 1
    omega

/-- Witness of the amended C18 at the stray sample handle. -/
theorem C18_defensive_rule_witness :
    Collecting strayHandle ∧ strayHandle.parser.byte_count < 10 ∧
      (strayHandle.parser.byte_count + 256 - 2) % 256 ≥ 8 ∧
      (parse_byte strayHandle 0x00).sensor_data = strayHandle.sensor_data :=
  ⟨by decide, by decide, by decide,
    (C18_defensive_rule strayHandle 0x00 (by decide) (by decide) (by decide)).2.2.2.1⟩

/-- C19 (payload bytes 6 and 7): two well-formed frames with the same selector
and the same payload bytes 0 to 5, each with its own checksum, fed from the
same Idle state, yield identical readings for all three categories. -/
theorem C19_unused_payload_bytes (h : JY901S_Handle) (f g : Frame) (hi : Idle h)
    (hf : f.wf) (hg : g.wf) (hs : f.sel = g.sel) (h0 : f.p0 = g.p0) (h1 : f.p1 = g.p1)
    (h2 : f.p2 = g.p2) (h3 : f.p3 = g.p3) (h4 : f.p4 = g.p4) (h5 : f.p5 = g.p5) :
    (feed h f.bytes).sensor_data = (feed h g.bytes).sensor_data := by
  rw [feed_frame_data h hi f hf, feed_frame_data h hi g hg]
  unfold store
  rw [decoded_congr f g hs h0 h1 h2 h3 h4 h5, hs]

/-- Witness of C19: the sample frame against a copy with bytes 6 and 7 set to
`12 34`. -/
theorem C19_unused_payload_bytes_witness :
    Idle sampleHandle ∧ sampleFrame.wf ∧ (Frame.mk 0x52 0x00 0x40 0 0 0xFF 0xFF 0x12 0x34).wf ∧
      (feed sampleHandle sampleFrame.bytes).sensor_data =
        (feed sampleHandle (Frame.mk 0x52 0x00 0x40 0 0 0xFF 0xFF 0x12 0x34).bytes).sensor_data :=
  ⟨by decide, by decide, by decide,
    C19_unused_payload_bytes sampleHandle sampleFrame
      (Frame.mk 0x52 0x00 0x40 0 0 0xFF 0xFF 0x12 0x34) (by decide) (by decide) (by decide)
      rfl rfl rfl rfl rfl rfl rfl⟩

/-- C20 as stated fails for acceleration: after the selector-free junk
`55 00` the well-formed acceleration frame with raw X = -32768 is decoded to
-5141509/32768, not to the documented -156.9064 of exact arithmetic. -/
theorem C20_counterexample :
    Idle sampleHandle ∧ fullScaleAccFrame.wf ∧ (∀ x ∈ [0x55, 0x00], ¬ isSelector x) ∧
      reading (feed sampleHandle ([0x55, 0x00] ++ fullScaleAccFrame.bytes)).sensor_data
        fullScaleAccFrame.sel ≠ fullScaleAccFrame.documented := by
  refine ⟨by decide, by decide, by decide, ?_⟩
  rw [frame_after_junk sampleHandle (by decide) [0x55, 0x00] fullScaleAccFrame (by decide)
    (by decide)]
  exact fullScale_ne

/-- C20 (recovery after selector-free junk, amended): junk without any
selector byte, with `0x55` bytes anywhere, followed by a well-formed frame and
fed from an Idle parser, leaves the readings unchanged throughout the junk and
the first 10 bytes of the frame; on the last byte the reading of the frame's
category becomes the decoded value of its payload, which is the documented
conversion exactly for angular rate and orientation and within 1e-7 relative
of it for acceleration, and the parser is back in Idle with checksum 0. -/
theorem C20_recovery_after_junk (h : JY901S_Handle) (junk : List Nat) (f : Frame)
    (hi : Idle h) (hf : f.wf) (hno : ∀ x ∈ junk, ¬ isSelector x) :
    (∀ n, (feed h (junk.take n)).sensor_data = h.sensor_data) ∧
      (∀ n, n ≤ 10 → (feed h (junk ++ f.bytes.take n)).sensor_data = h.sensor_data) ∧
      reading (feed h (junk ++ f.bytes)).sensor_data f.sel = f.decoded ∧
      (f.sel ≠ 0x51 → reading (feed h (junk ++ f.bytes)).sensor_data f.sel = f.documented) ∧
      closeTo (reading (feed h (junk ++ f.bytes)).sensor_data f.sel) f.documented ∧
      Idle (feed h (junk ++ f.bytes)) ∧ (feed h (junk ++ f.bytes)).parser.check_sum = 0 := by
  have hd : (parse_byte h 0x55).sensor_data = h.sensor_data := by
    rw [parse_byte_header h hi]
  have hj := feed_junk junk h hi (junk_of_no_selector junk hno)
  have hfr : feed h (junk ++ f.bytes) = feed h f.bytes := by
    rw [feed_append]
    rcases hj with e | e
    · rw [e]
    · rw [e, feed_frame_syncing h hi f]
  have hr : reading (feed h (junk ++ f.bytes)).sensor_data f.sel = f.decoded := by
    rw [hfr]
    exact frame_reading h hi f hf
  refine ⟨?_, ?_, hr, ?_, ?_, ?_, ?_⟩
  · intro n
    have hno2 : ∀ x ∈ junk.take n, ¬ isSelector x :=
      fun x hx => hno x (List.mem_of_mem_take hx)
    rcases feed_junk (junk.take n) h hi (junk_of_no_selector _ hno2) with e | e
    · rw [e]
    · rw [e, hd]
  · intro n hn
    rw [feed_append]
    rcases hj with e | e
    · rw [e]
      apply quiet_feed
      rw [quiet_idle h hi]
      exact le_trans (List.length_take_le n _) hn
    · rw [e]
      exact feed_take_syncing h hi f n hn
  · intro hs
    rw [hr, decoded_exact f hs]
  · rw [hr]
    exact decoded_close f
  · rw [hfr]
    exact idle_after_frame h hi f hf
  · rw [hfr]
    exact (feed_frame_reset h hi f hf).2.2

/-- Witness of C20: junk with three spurious headers before the sample
frame. -/
theorem C20_recovery_after_junk_witness :
    Idle sampleHandle ∧ sampleFrame.wf ∧ (∀ x ∈ [0x55, 0x00, 0x55, 0x55, 0x50], ¬ isSelector x) ∧
      reading (feed sampleHandle ([0x55, 0x00, 0x55, 0x55, 0x50] ++ sampleFrame.bytes)).sensor_data
        sampleFrame.sel = sampleFrame.documented :=
  ⟨by decide, by decide, by decide,
    (C20_recovery_after_junk sampleHandle [0x55, 0x00, 0x55, 0x55, 0x50] sampleFrame (by decide)
      (by decide) (by decide)).2.2.2.1 (by decide)⟩

end JY901S
